/-
Verification of the shadow-map subsystem of the Qt Quick 3D runtime renderer
(`src/runtimerender/qssgrendershadowmap.cpp`).

The C++ code is shallowly embedded: each source function becomes an executable
Lean definition over an explicit state record.  GPU objects (`QRhiTexture`,
`QRhiRenderBuffer`, `QRhiTextureRenderTarget`, `QRhiRenderPassDescriptor`)
become records carrying an allocation id plus the properties the code actually
inspects (pixel size, array layer count, color attachments).  The `QRhi`
device handle carries allocation / release counters so that reuse-vs-rebuild
behaviour is observable.  `Q_ASSERT` failures and C++ undefined behaviour
(the out-of-bounds `std::array` access reachable for 4096×4096 maps) are
modelled by returning `none`.  8-bit counters (`quint8`) are modelled as
`Nat` with explicit `% 256` at each point where the source truncates.
-/
import Mathlib

set_option autoImplicit false
set_option maxRecDepth 8192

namespace QSSG

/-- `QSize(width, height)`, as used for shadow-map texture dimensions. -/
structure QSize where
  width : Nat
  height : Nat
deriving DecidableEq

/-- The two texture formats the shadow-map code chooses between. -/
inductive QRhiTextureFormat where
  | R16F
  | R16
deriving DecidableEq

/-- Shadow map modes (`ShadowMapModes` in the runtime renderer). -/
inductive ShadowMapModes where
  | VSM
  | CUBE
deriving DecidableEq

/-- `QSSGRenderLight::Type`, restricted to the categories the shadow code
inspects. -/
inductive QSSGRenderLightType where
  | DirectionalLight
  | PointLight
  | SpotLight
deriving DecidableEq

/-- One element of the `QSSGShaderLightList` input: the fields of a shader
light that `addShadowMaps` reads (`light->type`, `shadows`,
`light->m_shadowMapRes`, `light->debugObjectName`). -/
structure QSSGShaderLight where
  type : QSSGRenderLightType
  shadows : Bool
  m_shadowMapRes : Nat
  debugObjectName : String
deriving DecidableEq

/-- A `QRhiTexture`: allocation id plus the properties the shadow-map code
reads back (`pixelSize`, `arraySize`, and its format). -/
structure QRhiTexture where
  id : Nat
  format : QRhiTextureFormat
  pixelSize : QSize
  arraySize : Nat
deriving DecidableEq

/-- A `QRhiRenderBuffer` (depth-stencil buffer). -/
structure QRhiRenderBuffer where
  id : Nat
  pixelSize : QSize
deriving DecidableEq

/-- A `QRhiTextureRenderTarget`: its color attachments are recorded as
`(texture id, layer)` pairs, in attachment order. -/
structure QRhiTextureRenderTarget where
  id : Nat
  colorAttachments : List (Nat × Nat)
  hasDepthStencil : Bool
deriving DecidableEq

/-- A `QRhiRenderPassDescriptor`. -/
structure QRhiRenderPassDescriptor where
  id : Nat
deriving DecidableEq

/-- The `QRhi` device handle: a fresh-id supply, allocation / release
counters (every `new*` call counts as one allocation, every `delete` of a
non-null handle as one release), and the device capabilities the code
queries (`isTextureFormatSupported(R16F)` and
`resourceLimit(MaxColorAttachments)`). -/
structure QRhi where
  nextId : Nat
  allocations : Nat
  releases : Nat
  r16fSupported : Bool
  maxColorAttachments : Nat
deriving DecidableEq

/-- `allocateRhiShadowTexture`: `rhi->newTexture(format, size, 1, flags)`,
followed by `setArraySize(numLayers)` when the `TextureArray` flag is set.
(`create()` failures are logged in the source and leave the handle usable;
they do not alter control flow, so they are not modelled.) -/
def allocateRhiShadowTexture (rhi : QRhi) (format : QRhiTextureFormat)
    (size : QSize) (numLayers : Nat) (flagsTextureArray : Bool) :
    QRhi × QRhiTexture :=
  let texture : QRhiTexture :=
    { id := rhi.nextId
      format := format
      pixelSize := size
      arraySize := if flagsTextureArray then numLayers else 0 }
  ({ rhi with nextId := rhi.nextId + 1, allocations := rhi.allocations + 1 },
   texture)

/-- `allocateRhiShadowRenderBuffer`: `rhi->newRenderBuffer(DepthStencil, size, 1)`. -/
def allocateRhiShadowRenderBuffer (rhi : QRhi) (size : QSize) :
    QRhi × QRhiRenderBuffer :=
  ({ rhi with nextId := rhi.nextId + 1, allocations := rhi.allocations + 1 },
   { id := rhi.nextId, pixelSize := size })

/-- `rhi->newTextureRenderTarget(rtDesc)` followed by `create()`. -/
def newTextureRenderTarget (rhi : QRhi) (colorAttachments : List (Nat × Nat))
    (hasDepthStencil : Bool) : QRhi × QRhiTextureRenderTarget :=
  ({ rhi with nextId := rhi.nextId + 1, allocations := rhi.allocations + 1 },
   { id := rhi.nextId, colorAttachments := colorAttachments,
     hasDepthStencil := hasDepthStencil })

/-- `rt->newCompatibleRenderPassDescriptor()`. -/
def newRenderPassDescriptor (rhi : QRhi) : QRhi × QRhiRenderPassDescriptor :=
  ({ rhi with nextId := rhi.nextId + 1, allocations := rhi.allocations + 1 },
   { id := rhi.nextId })

/-- `getShadowMapTextureFormat`: prefer `R16F`, fall back to `R16` when the
float format is not supported. -/
def getShadowMapTextureFormat (rhi : QRhi) : QRhiTextureFormat :=
  if rhi.r16fSupported then QRhiTextureFormat.R16F else QRhiTextureFormat.R16

/-- `qCountTrailingZeroBits` on a `quint32`: index of the least significant
set bit among bits 0–31, or 32 when no bit below 32 is set. -/
def qCountTrailingZeroBits (n : Nat) : Nat :=
  (((List.range 32).find? (fun i => n.testBit i)).getD 32)

/-- `mapSizeToIndex`.  The three `Q_ASSERT`s (power of two, at least 256,
index at most 4) become `none` results.  The `quint8` cast of
`qCountTrailingZeroBits(mapSize) - 8` is the explicit `% 256`. -/
def mapSizeToIndex (mapSize : Nat) : Option Nat :=
  if mapSize &&& (mapSize - 1) ≠ 0 then none
  else if mapSize < 256 then none
  else
    let index := (qCountTrailingZeroBits mapSize - 8) % 256
    if index ≤ 4 then some index else none

/-- `indexToMapSize`: `1 << (index + 8)`, guarded by `Q_ASSERT(index <= 4)`. -/
def indexToMapSize (index : Nat) : Option Nat :=
  if index ≤ 4 then some (2 ^ (index + 8)) else none

/-- `QSSGShadowMapEntry`.  Pointer members are `Option`s; `m_rhiRenderTargets`
is the fixed six-slot render-target array. -/
structure QSSGShadowMapEntry where
  m_lightIndex : Nat
  m_shadowMapMode : ShadowMapModes
  m_rhiDepthTextureArray : Option QRhiTexture
  m_rhiDepthCopy : Option QRhiTexture
  m_rhiDepthCube : Option QRhiTexture
  m_rhiCubeCopy : Option QRhiTexture
  m_rhiDepthStencil : Option QRhiRenderBuffer
  m_rhiRenderTargets : List (Option QRhiTextureRenderTarget)
  m_rhiRenderPassDesc : Option QRhiRenderPassDescriptor
  m_rhiBlurRenderTarget0 : Option QRhiTextureRenderTarget
  m_rhiBlurRenderTarget1 : Option QRhiTextureRenderTarget
  m_rhiBlurRenderPassDesc : Option QRhiRenderPassDescriptor
  m_depthArrayIndex : Nat
deriving DecidableEq

/-- The default-constructed entry: `m_lightIndex` is the `quint32` sentinel,
the mode is `VSM`, every resource handle is null. -/
def QSSGShadowMapEntry.default : QSSGShadowMapEntry :=
  { m_lightIndex := 2 ^ 32 - 1
    m_shadowMapMode := ShadowMapModes.VSM
    m_rhiDepthTextureArray := none
    m_rhiDepthCopy := none
    m_rhiDepthCube := none
    m_rhiCubeCopy := none
    m_rhiDepthStencil := none
    m_rhiRenderTargets := List.replicate 6 none
    m_rhiRenderPassDesc := none
    m_rhiBlurRenderTarget0 := none
    m_rhiBlurRenderTarget1 := none
    m_rhiBlurRenderPassDesc := none
    m_depthArrayIndex := 0 }

/-- `QSSGShadowMapEntry::withRhiDepthMap`. -/
def QSSGShadowMapEntry.withRhiDepthMap (lightIdx : Nat) (mode : ShadowMapModes)
    (textureArray : QRhiTexture) (depthCopy : QRhiTexture)
    (depthStencil : QRhiRenderBuffer) : QSSGShadowMapEntry :=
  { QSSGShadowMapEntry.default with
    m_lightIndex := lightIdx
    m_shadowMapMode := mode
    m_rhiDepthTextureArray := some textureArray
    m_rhiDepthCopy := some depthCopy
    m_rhiDepthStencil := some depthStencil }

/-- `QSSGShadowMapEntry::withRhiDepthCubeMap`. -/
def QSSGShadowMapEntry.withRhiDepthCubeMap (lightIdx : Nat)
    (mode : ShadowMapModes) (depthCube : QRhiTexture) (cubeCopy : QRhiTexture)
    (depthStencil : QRhiRenderBuffer) : QSSGShadowMapEntry :=
  { QSSGShadowMapEntry.default with
    m_lightIndex := lightIdx
    m_shadowMapMode := mode
    m_rhiDepthCube := some depthCube
    m_rhiCubeCopy := some cubeCopy
    m_rhiDepthStencil := some depthStencil }

/-- `QSSGShadowMapEntry::isCompatible`.  The source dereferences
`m_rhiCubeCopy` (CUBE) or `m_rhiDepthTextureArray` (VSM); dereferencing a
null handle is modelled as `none`. -/
def QSSGShadowMapEntry.isCompatible (e : QSSGShadowMapEntry) (mapSize : QSize)
    (layerIndex : Nat) (mapMode : ShadowMapModes) : Option Bool :=
  if mapMode ≠ e.m_shadowMapMode then some false
  else
    match mapMode with
    | ShadowMapModes.CUBE =>
      match e.m_rhiCubeCopy with
      | none => none
      | some t => if mapSize ≠ t.pixelSize then some false else some true
    | ShadowMapModes.VSM =>
      match e.m_rhiDepthTextureArray with
      | none => none
      | some t =>
        if mapSize ≠ t.pixelSize ∨ t.arraySize ≤ layerIndex then some false
        else some true

/-- The ids of the GPU objects a `QSSGShadowMapEntry` exclusively owns, in
the order `destroyRhiResources` deletes them.  The shared depth texture array
is deliberately absent: the entry only holds a non-owning reference to it. -/
def QSSGShadowMapEntry.ownedResourceIds (e : QSSGShadowMapEntry) : List Nat :=
  (e.m_rhiDepthCopy.map QRhiTexture.id).toList ++
  (e.m_rhiDepthCube.map QRhiTexture.id).toList ++
  (e.m_rhiCubeCopy.map QRhiTexture.id).toList ++
  (e.m_rhiDepthStencil.map QRhiRenderBuffer.id).toList ++
  (e.m_rhiRenderTargets.filterMap (fun rt => rt.map QRhiTextureRenderTarget.id)) ++
  (e.m_rhiRenderPassDesc.map QRhiRenderPassDescriptor.id).toList ++
  (e.m_rhiBlurRenderTarget0.map QRhiTextureRenderTarget.id).toList ++
  (e.m_rhiBlurRenderTarget1.map QRhiTextureRenderTarget.id).toList ++
  (e.m_rhiBlurRenderPassDesc.map QRhiRenderPassDescriptor.id).toList

/-- `QSSGShadowMapEntry::destroyRhiResources`: deletes every owned GPU object
and nulls the members, and merely clears the non-owning
`m_rhiDepthTextureArray` pointer.  The returned list holds the ids of the
objects actually deleted (`delete nullptr` is a no-op). -/
def QSSGShadowMapEntry.destroyRhiResources (e : QSSGShadowMapEntry) :
    QSSGShadowMapEntry × List Nat :=
  ({ e with
      m_rhiDepthTextureArray := none
      m_rhiDepthCopy := none
      m_rhiDepthCube := none
      m_rhiCubeCopy := none
      m_rhiDepthStencil := none
      m_rhiRenderTargets := List.replicate 6 none
      m_rhiRenderPassDesc := none
      m_rhiBlurRenderTarget0 := none
      m_rhiBlurRenderTarget1 := none
      m_rhiBlurRenderPassDesc := none },
   e.ownedResourceIds)

/-- The state of one `QSSGRenderShadowMap` ("the Registry") together with its
graphics device.  `rhiPresent` models `m_context.rhiContext()->rhi()`
returning null.  `warnedMaxAttachments` / `warnCount` model the
function-local `static bool warned` of `addCubeShadowMap` and the number of
times the capability warning was actually printed. -/
structure ShadowState where
  rhi : QRhi
  rhiPresent : Bool
  m_shadowMapList : List QSSGShadowMapEntry
  m_depthTextureArrays : List (QSize × QRhiTexture)
  warnedMaxAttachments : Bool
  warnCount : Nat
deriving DecidableEq

/-- Lookup in the `m_depthTextureArrays` map (`QHash::value`, returning the
null pointer when the key is absent). -/
def mapLookup (m : List (QSize × QRhiTexture)) (k : QSize) :
    Option QRhiTexture :=
  match m.find? (fun p => decide (p.1 = k)) with
  | none => none
  | some p => some p.2

/-- Insert into the `m_depthTextureArrays` map (`QHash::insert`: replaces the
value when the key is present, appends otherwise). -/
def mapInsert (m : List (QSize × QRhiTexture)) (k : QSize) (v : QRhiTexture) :
    List (QSize × QRhiTexture) :=
  if m.any (fun p => decide (p.1 = k)) then
    m.map (fun p => if p.1 = k then (k, v) else p)
  else
    m ++ [(k, v)]

/-- `QSSGRenderShadowMap::shadowMapEntry`: linear scan of `m_shadowMapList`
for the entry with the given light index. -/
def shadowMapEntry (st : ShadowState) (lightIdx : Nat) :
    Option QSSGShadowMapEntry :=
  st.m_shadowMapList.find? (fun e => decide (e.m_lightIndex = lightIdx))

/-- Modelled from the spec: `shadowMapEntryCount` is declared in the class
header `qssgrendershadowmap_p.h`, which is not part of the reviewed sources;
per the spec's rebuild decision it is "the current Entry count", i.e. the
length of the entry collection. -/
def shadowMapEntryCount (st : ShadowState) : Nat :=
  st.m_shadowMapList.length

/-- `QSSGRenderShadowMap::releaseCachedResources`: destroy every entry's
owned resources, delete every shared texture array, clear both collections. -/
def releaseCachedResources (st : ShadowState) : ShadowState :=
  let entryDeletes :=
    (st.m_shadowMapList.map
      (fun e => (QSSGShadowMapEntry.destroyRhiResources e).2.length)).sum
  let arrayDeletes := st.m_depthTextureArrays.length
  { st with
      rhi := { st.rhi with
                releases := st.rhi.releases + entryDeletes + arrayDeletes }
      m_shadowMapList := []
      m_depthTextureArrays := [] }

/-- `QSSGRenderShadowMap::~QSSGRenderShadowMap()`: the destructor's whole
body is a call to `releaseCachedResources`. -/
def shadowMapDestructor (st : ShadowState) : ShadowState :=
  releaseCachedResources st

/-- The mode selection in `addShadowMaps`: every non-directional light (point
or spot) takes the CUBE path, only directional lights take VSM. -/
def shadowMapModeFor (shaderLight : QSSGShaderLight) : ShadowMapModes :=
  if shaderLight.type ≠ QSSGRenderLightType.DirectionalLight then
    ShadowMapModes.CUBE
  else
    ShadowMapModes.VSM

/-- Accumulator of the first loop of `addShadowMaps`: the shadow-caster
count, the `std::array<quint8, 4> textureSizeLayerCount` (a four-element
list; values are `quint8`, kept below 256), and the
`QVarLengthArray<quint8, 16> lightIndexToLayerIndex` (pre-sized to the light
count). -/
structure CountAcc where
  numShadows : Nat
  textureSizeLayerCount : List Nat
  lightIndexToLayerIndex : List Nat
deriving DecidableEq

/-- The first loop of `addShadowMaps` (lines 89–102): count shadow casters
and assign, per resolution bucket, a running `quint8` layer index to each
shadow-casting directional light.  `textureSizeLayerCount[...]` uses
unchecked `operator[]` on a four-element `std::array`; an index outside
`0..3` is undefined behaviour and yields `none`. -/
def countingAux : List QSSGShaderLight → Nat → CountAcc → Option CountAcc
  | [], _, acc => some acc
  | shaderLight :: rest, lightIndex, acc =>
    let mapMode := shadowMapModeFor shaderLight
    let acc1 :=
      if shaderLight.shadows then
        { acc with numShadows := acc.numShadows + 1 }
      else acc
    if shaderLight.shadows = false ∨ mapMode = ShadowMapModes.CUBE then
      countingAux rest (lightIndex + 1) acc1
    else
      match mapSizeToIndex shaderLight.m_shadowMapRes with
      | none => none
      | some szIdx =>
        match acc1.textureSizeLayerCount[szIdx]? with
        | none => none
        | some layerIndex =>
          countingAux rest (lightIndex + 1)
            { acc1 with
                textureSizeLayerCount :=
                  acc1.textureSizeLayerCount.set szIdx ((layerIndex + 1) % 256)
                lightIndexToLayerIndex :=
                  acc1.lightIndexToLayerIndex.set lightIndex layerIndex }

/-- The initial accumulator and the whole first loop. -/
def countingLoop (renderableLights : List QSSGShaderLight) : Option CountAcc :=
  countingAux renderableLights 0
    { numShadows := 0
      textureSizeLayerCount := [0, 0, 0, 0]
      lightIndexToLayerIndex := List.replicate renderableLights.length 0 }

/-- The compatibility-check loop of `addShadowMaps` (lines 108–128): walk the
lights; a shadow-casting light with no entry, or whose entry is incompatible
with the freshly computed candidate, makes the result `true`. -/
def rebuildCheckAux (st : ShadowState) (layerOf : List Nat) :
    List QSSGShaderLight → Nat → Option Bool
  | [], _ => some false
  | shaderLight :: rest, lightIndex =>
    if shaderLight.shadows = false then
      rebuildCheckAux st layerOf rest (lightIndex + 1)
    else
      match shadowMapEntry st lightIndex with
      | none => some true
      | some pEntry =>
        let mapMode := shadowMapModeFor shaderLight
        let mapSize := shaderLight.m_shadowMapRes
        let layerIndex :=
          if mapMode = ShadowMapModes.VSM then layerOf.getD lightIndex 0
          else 0
        match pEntry.isCompatible ⟨mapSize, mapSize⟩ layerIndex mapMode with
        | none => none
        | some compat =>
          if compat = false then some true
          else rebuildCheckAux st layerOf rest (lightIndex + 1)

/-- The `needsRebuild` decision of `addShadowMaps` (lines 104–129). -/
def computeNeedsRebuild (st : ShadowState) (renderableLights : List QSSGShaderLight)
    (acc : CountAcc) : Option Bool :=
  if acc.numShadows ≠ shadowMapEntryCount st then some true
  else rebuildCheckAux st acc.lightIndexToLayerIndex renderableLights 0

/-- The "Create VSM texture arrays" loop of `addShadowMaps` (lines 136–147),
iterating over the enumerated `textureSizeLayerCount`: for each non-empty
resolution bucket allocate one shared texture array with that many layers. -/
def createTextureArraysAux (st : ShadowState) :
    List (Nat × Nat) → Option ShadowState
  | [] => some st
  | (i, numLayers) :: rest =>
    if numLayers = 0 then createTextureArraysAux st rest
    else
      match indexToMapSize i with
      | none => none
      | some mapSize =>
        let texSize : QSize := ⟨mapSize, mapSize⟩
        let rhiFormat := getShadowMapTextureFormat st.rhi
        let allocated :=
          allocateRhiShadowTexture st.rhi rhiFormat texSize numLayers true
        createTextureArraysAux
          { st with
              rhi := allocated.1
              m_depthTextureArrays :=
                mapInsert st.m_depthTextureArrays texSize allocated.2 }
          rest

/-- The texture-array creation loop over `i = 0 .. textureSizeLayerCount.size()-1`. -/
def createTextureArrays (st : ShadowState) (textureSizeLayerCount : List Nat) :
    Option ShadowState :=
  createTextureArraysAux st textureSizeLayerCount.enum

/-- `QSSGRenderShadowMap::addDirectionalShadowMap` (lines 175–235).  The
`Q_ASSERT(rhi)`, `Q_ASSERT(!pEntry)` and `Q_ASSERT(texture)` contract checks
yield `none`. -/
def addDirectionalShadowMap (st : ShadowState) (lightIdx : Nat) (size : QSize)
    (layerIndex : Nat) (renderNodeObjName : String) : Option ShadowState :=
  if st.rhiPresent = false then none
  else
    match shadowMapEntry st lightIdx with
    | some _ => none
    | none =>
      let rhiFormat := getShadowMapTextureFormat st.rhi
      match mapLookup st.m_depthTextureArrays size with
      | none => none
      | some texture =>
        let a1 := allocateRhiShadowTexture st.rhi rhiFormat size 0 false
        let depthCopy := a1.2
        let a2 := allocateRhiShadowRenderBuffer a1.1 size
        let depthStencil := a2.2
        let e0 := QSSGShadowMapEntry.withRhiDepthMap lightIdx
          ShadowMapModes.VSM texture depthCopy depthStencil
        -- main render target: one attachment into the shared array layer
        let a3 := newTextureRenderTarget a2.1 [(texture.id, layerIndex)] true
        let rt := a3.2
        let a4 := newRenderPassDescriptor a3.1
        let rpd := a4.2
        -- blur X: depthMap -> depthCopy
        let a5 := newTextureRenderTarget a4.1 [(depthCopy.id, 0)] false
        let blur0 := a5.2
        let a6 := newRenderPassDescriptor a5.1
        let blurRpd := a6.2
        -- blur Y: depthCopy -> depthMap (the shared array layer)
        let a7 := newTextureRenderTarget a6.1 [(texture.id, layerIndex)] false
        let blur1 := a7.2
        let pEntry :=
          { e0 with
              m_rhiRenderTargets := e0.m_rhiRenderTargets.set 0 (some rt)
              m_rhiRenderPassDesc := some rpd
              m_rhiBlurRenderTarget0 := some blur0
              m_rhiBlurRenderPassDesc := some blurRpd
              m_rhiBlurRenderTarget1 := some blur1
              m_lightIndex := lightIdx
              m_depthArrayIndex := layerIndex }
        some { st with
                rhi := a7.1
                m_shadowMapList := st.m_shadowMapList ++ [pEntry] }

/-- `QSSGRenderShadowMap::addCubeShadowMap` (lines 237–314), with the six
per-face render targets unrolled and the `MaxColorAttachments >= 6` gate on
the two multi-attachment blur targets.  The one-shot capability warning sets
the process-wide `warned` flag. -/
def addCubeShadowMap (st : ShadowState) (lightIdx : Nat) (size : QSize)
    (renderNodeObjName : String) : Option ShadowState :=
  if st.rhiPresent = false then none
  else
    match shadowMapEntry st lightIdx with
    | some _ => none
    | none =>
      let rhiFormat := getShadowMapTextureFormat st.rhi
      let a1 := allocateRhiShadowTexture st.rhi rhiFormat size 0 false
      let depthMap := a1.2
      let a2 := allocateRhiShadowTexture a1.1 rhiFormat size 0 false
      let depthCopy := a2.2
      let a3 := allocateRhiShadowRenderBuffer a2.1 size
      let depthStencil := a3.2
      let e0 := QSSGShadowMapEntry.withRhiDepthCubeMap lightIdx
        ShadowMapModes.CUBE depthMap depthCopy depthStencil
      -- six per-face render targets; the render-pass descriptor is created
      -- at the first face and shared by the rest
      let f0 := newTextureRenderTarget a3.1 [(depthMap.id, 0)] true
      let p0 := newRenderPassDescriptor f0.1
      let rpd := p0.2
      let f1 := newTextureRenderTarget p0.1 [(depthMap.id, 1)] true
      let f2 := newTextureRenderTarget f1.1 [(depthMap.id, 2)] true
      let f3 := newTextureRenderTarget f2.1 [(depthMap.id, 3)] true
      let f4 := newTextureRenderTarget f3.1 [(depthMap.id, 4)] true
      let f5 := newTextureRenderTarget f4.1 [(depthMap.id, 5)] true
      let faceTargets : List (Option QRhiTextureRenderTarget) :=
        [some f0.2, some f1.2, some f2.2, some f3.2, some f4.2, some f5.2]
      let e1 :=
        { e0 with
            m_rhiRenderTargets := faceTargets
            m_rhiRenderPassDesc := some rpd }
      if 6 ≤ st.rhi.maxColorAttachments then
        -- blur X: depthCube -> cubeCopy, all six faces as COLOR0..5
        let b0 := newTextureRenderTarget f5.1
          ((List.range 6).map (fun face => (depthCopy.id, face))) false
        let pb := newRenderPassDescriptor b0.1
        -- blur Y: cubeCopy -> depthCube
        let b1 := newTextureRenderTarget pb.1
          ((List.range 6).map (fun face => (depthMap.id, face))) false
        let pEntry :=
          { e1 with
              m_rhiBlurRenderTarget0 := some b0.2
              m_rhiBlurRenderPassDesc := some pb.2
              m_rhiBlurRenderTarget1 := some b1.2 }
        some { st with
                rhi := b1.1
                m_shadowMapList := st.m_shadowMapList ++ [pEntry] }
      else
        -- static bool warned: log the capability shortfall only once
        let st1 :=
          if st.warnedMaxAttachments = false then
            { st with warnedMaxAttachments := true,
                      warnCount := st.warnCount + 1 }
          else st
        some { st1 with
                rhi := f5.1
                m_shadowMapList := st1.m_shadowMapList ++ [e1] }

/-- The "Setup render targets" loop of `addShadowMaps` (lines 150–172): one
entry per shadow-casting light, cube path for non-directional lights, VSM
path (with the precomputed layer index) for directional ones. -/
def buildEntriesAux (layerOf : List Nat) :
    ShadowState → List QSSGShaderLight → Nat → Option ShadowState
  | st, [], _ => some st
  | st, shaderLight :: rest, lightIdx =>
    if shaderLight.shadows = false then
      buildEntriesAux layerOf st rest (lightIdx + 1)
    else
      let mapSize : QSize :=
        ⟨shaderLight.m_shadowMapRes, shaderLight.m_shadowMapRes⟩
      match shadowMapModeFor shaderLight with
      | ShadowMapModes.VSM =>
        match addDirectionalShadowMap st lightIdx mapSize
            (layerOf.getD lightIdx 0) shaderLight.debugObjectName with
        | none => none
        | some st1 => buildEntriesAux layerOf st1 rest (lightIdx + 1)
      | ShadowMapModes.CUBE =>
        match addCubeShadowMap st lightIdx mapSize
            shaderLight.debugObjectName with
        | none => none
        | some st1 => buildEntriesAux layerOf st1 rest (lightIdx + 1)

/-- `QSSGRenderShadowMap::addShadowMaps` — the reconcile operation. -/
def addShadowMaps (st : ShadowState)
    (renderableLights : List QSSGShaderLight) : Option ShadowState :=
  if st.rhiPresent = false then some st
  else
    match countingLoop renderableLights with
    | none => none
    | some acc =>
      match computeNeedsRebuild st renderableLights acc with
      | none => none
      | some needsRebuild =>
        if needsRebuild = false then some st
        else
          let st1 := releaseCachedResources st
          match createTextureArrays st1 acc.textureSizeLayerCount with
          | none => none
          | some st2 =>
            buildEntriesAux acc.lightIndexToLayerIndex st2 renderableLights 0

/-- A sequence of frames: reconcile against each light list in turn. -/
def runFrames : ShadowState → List (List QSSGShaderLight) → Option ShadowState
  | st, [] => some st
  | st, lights :: rest =>
    match addShadowMaps st lights with
    | none => none
    | some st1 => runFrames st1 rest

/-- A freshly constructed registry on a live device with the given
capabilities: no entries, no shared arrays, warning not yet issued. -/
def initialShadowState (r16f : Bool) (maxColorAttachments : Nat) : ShadowState :=
  { rhi :=
      { nextId := 0
        allocations := 0
        releases := 0
        r16fSupported := r16f
        maxColorAttachments := maxColorAttachments }
    rhiPresent := true
    m_shadowMapList := []
    m_depthTextureArrays := []
    warnedMaxAttachments := false
    warnCount := 0 }

/-! ## Sample lights used by concrete witnesses and counterexamples -/

/-- A shadow-casting directional light with the given resolution. -/
def sampleDirLight (res : Nat) : QSSGShaderLight :=
  { type := QSSGRenderLightType.DirectionalLight
    shadows := true
    m_shadowMapRes := res
    debugObjectName := "dir" }

/-- A shadow-casting spot light with the given resolution. -/
def sampleSpotLight (res : Nat) : QSSGShaderLight :=
  { type := QSSGRenderLightType.SpotLight
    shadows := true
    m_shadowMapRes := res
    debugObjectName := "spot" }

/-- A shadow-casting point light with the given resolution. -/
def samplePointLight (res : Nat) : QSSGShaderLight :=
  { type := QSSGRenderLightType.PointLight
    shadows := true
    m_shadowMapRes := res
    debugObjectName := "point" }

/-! ## Arithmetic of `mapSizeToIndex` -/

lemma land_two_mul_add_one_two_mul (m : Nat) :
    (2 * m + 1) &&& (2 * m) = 2 * m := by
  apply Nat.eq_of_testBit_eq
  intro i
  cases i with
  | zero =>
    have h1 : (2 * m + 1) % 2 = 1 := by omega
    have h2 : (2 * m) % 2 = 0 := by omega
    rw [Nat.testBit_land, Nat.testBit_zero, Nat.testBit_zero, h1, h2]
    rfl
  | succ i =>
    have h1 : (2 * m + 1) / 2 = m := by omega
    have h2 : (2 * m) / 2 = m := by omega
    rw [Nat.testBit_land, ← Nat.testBit_div_two, ← Nat.testBit_div_two (2 * m),
      h1, h2, Bool.and_self]

lemma land_two_mul_pred (m : Nat) (hm : m ≠ 0) :
    (2 * m) &&& (2 * m - 1) = 2 * (m &&& (m - 1)) := by
  apply Nat.eq_of_testBit_eq
  intro i
  cases i with
  | zero =>
    have h1 : (2 * m) % 2 = 0 := by omega
    have h2 : (2 * (m &&& (m - 1))) % 2 = 0 := by omega
    rw [Nat.testBit_land, Nat.testBit_zero, Nat.testBit_zero, Nat.testBit_zero,
      h1, h2]
    rfl
  | succ i =>
    have h1 : (2 * m) / 2 = m := by omega
    have h2 : (2 * m - 1) / 2 = m - 1 := by omega
    have h3 : (2 * (m &&& (m - 1))) / 2 = m &&& (m - 1) := by omega
    rw [Nat.testBit_land, ← Nat.testBit_div_two, ← Nat.testBit_div_two (2 * m - 1),
      ← Nat.testBit_div_two (2 * (m &&& (m - 1))), h1, h2, h3, Nat.testBit_land]

lemma pow2_of_land_pred (n : Nat) (h0 : n ≠ 0) (h : n &&& (n - 1) = 0) :
    ∃ k, n = 2 ^ k := by
  induction n using Nat.strong_induction_on with
  | _ n ih =>
    rcases Nat.mod_two_eq_zero_or_one n with h2 | h2
    · have hm : n = 2 * (n / 2) := by omega
      have hm0 : n / 2 ≠ 0 := by omega
      rw [hm, land_two_mul_pred (n / 2) hm0] at h
      have h' : (n / 2) &&& (n / 2 - 1) = 0 := by omega
      obtain ⟨k, hk⟩ := ih (n / 2) (by omega) hm0 h'
      exact ⟨k + 1, by rw [hm, hk, pow_succ, Nat.mul_comm]⟩
    · have hm : n = 2 * (n / 2) + 1 := by omega
      have hpred : n - 1 = 2 * (n / 2) := by omega
      have h' : (2 * (n / 2) + 1) &&& (2 * (n / 2)) = 0 := by
        rw [← hm, ← hpred]
        exact h
      rw [land_two_mul_add_one_two_mul] at h'
      exact ⟨0, by omega⟩

lemma qCountTrailingZeroBits_two_pow_lt (k : Nat) (hk : k < 32) :
    qCountTrailingZeroBits (2 ^ k) = k := by
  interval_cases k <;> decide

lemma qCountTrailingZeroBits_two_pow_ge (k : Nat) (hk : 32 ≤ k) :
    qCountTrailingZeroBits (2 ^ k) = 32 := by
  unfold qCountTrailingZeroBits
  have hnone : (List.range 32).find? (fun i => (2 ^ k).testBit i) = none := by
    rw [List.find?_eq_none]
    intro x hx
    rw [List.mem_range] at hx
    simp only [Nat.testBit_two_pow]
    simp only [decide_eq_true_eq]
    omega
  rw [hnone]
  rfl

/-- Characterization of a successful `mapSizeToIndex`: the result is a bucket
index at most 4 and the input resolution is exactly `2 ^ (index + 8)`. -/
lemma mapSizeToIndex_char (n j : Nat) (h : mapSizeToIndex n = some j) :
    j ≤ 4 ∧ n = 2 ^ (j + 8) := by
  simp only [mapSizeToIndex] at h
  by_cases hand : n &&& (n - 1) ≠ 0
  · rw [if_pos hand] at h
    exact absurd h (by simp)
  · have hzero : n &&& (n - 1) = 0 := by
      by_contra hc
      exact hand hc
    rw [if_neg hand] at h
    by_cases hlt : n < 256
    · rw [if_pos hlt] at h
      exact absurd h (by simp)
    · rw [if_neg hlt] at h
      by_cases hle : (qCountTrailingZeroBits n - 8) % 256 ≤ 4
      · rw [if_pos hle] at h
        have hj : (qCountTrailingZeroBits n - 8) % 256 = j := Option.some.inj h
        have h0 : n ≠ 0 := by omega
        obtain ⟨k, hk⟩ := pow2_of_land_pred n h0 hzero
        have hk8 : 8 ≤ k := by
          by_contra hc
          push_neg at hc
          have hlt2 : 2 ^ k < 2 ^ 8 := Nat.pow_lt_pow_right (by omega) (by omega)
          have h28 : (2 : Nat) ^ 8 = 256 := by norm_num
          rw [h28] at hlt2
          exact hlt (by rw [hk]; exact hlt2)
        rcases Nat.lt_or_ge k 32 with h32 | h32
        · have hctz : qCountTrailingZeroBits n = k := by
            rw [hk]
            exact qCountTrailingZeroBits_two_pow_lt k h32
          rw [hctz, Nat.mod_eq_of_lt (by omega : k - 8 < 256)] at hj hle
          constructor
          · omega
          · rw [hk]
            congr 1
            omega
        · have hctz : qCountTrailingZeroBits n = 32 := by
            rw [hk]
            exact qCountTrailingZeroBits_two_pow_ge k h32
          rw [hctz] at hle
          norm_num at hle
      · rw [if_neg hle] at h
        exact absurd h (by simp)

/-- **C8** — Resolution round-trip: for every resolution in
{256, 512, 1024, 2048, 4096}, encoding to a bucket index with
`mapSizeToIndex` and decoding back with `indexToMapSize` yields the original
resolution. -/
theorem C8_resolution_round_trip :
    (mapSizeToIndex 256 = some 0 ∧ indexToMapSize 0 = some 256) ∧
    (mapSizeToIndex 512 = some 1 ∧ indexToMapSize 1 = some 512) ∧
    (mapSizeToIndex 1024 = some 2 ∧ indexToMapSize 2 = some 1024) ∧
    (mapSizeToIndex 2048 = some 3 ∧ indexToMapSize 3 = some 2048) ∧
    (mapSizeToIndex 4096 = some 4 ∧ indexToMapSize 4 = some 4096) := by
  decide

/-- **C5** — The claim (all accesses to the per-resolution layer-count array
stay in bounds for resolutions up to 4096) is what the code's own assertions
promise (`mapSizeToIndex` asserts index ≤ 4 and `indexToMapSize(4) = 4096`),
but `addShadowMaps` indexes the four-element
`std::array<quint8, 4> textureSizeLayerCount` with bucket index 4 for a
4096×4096 shadow-casting directional light: an out-of-bounds access,
modelled as `none`. -/
theorem C5_layer_count_array_out_of_bounds_at_4096 :
    mapSizeToIndex 4096 = some 4 ∧
    indexToMapSize 4 = some 4096 ∧
    ([0, 0, 0, 0] : List Nat).length = 4 ∧
    countingLoop [sampleDirLight 4096] = none ∧
    addShadowMaps (initialShadowState true 8) [sampleDirLight 4096] = none := by
  decide

/-- **C7** — `releaseCachedResources` empties both the entry collection and
the size-to-shared-array map, is idempotent (a second call changes nothing,
in particular releases nothing further), and is exactly what the registry
destructor runs. -/
theorem C7_releaseCachedResources_clears_idempotent (st : ShadowState) :
    (releaseCachedResources st).m_shadowMapList = [] ∧
    (releaseCachedResources st).m_depthTextureArrays = [] ∧
    releaseCachedResources (releaseCachedResources st) =
      releaseCachedResources st ∧
    shadowMapDestructor st = releaseCachedResources st := by
  refine ⟨rfl, rfl, ?_, rfl⟩
  simp [releaseCachedResources]

/-- **C10** — `destroyRhiResources` nulls every resource member of the
entry, deletes exactly the entry-owned GPU objects (depth copy, depth cube,
cube copy, depth-stencil buffer, all render targets, both render-pass
descriptors), preserves the entry's identity fields, and never deletes the
shared depth texture array: whenever the shared array is not aliased by an
owned object, its id is not among the deleted ids — the non-owning
reference is merely cleared. -/
theorem C10_destroy_deletes_owned_only (e : QSSGShadowMapEntry) :
    (e.destroyRhiResources.1.m_rhiDepthTextureArray = none ∧
     e.destroyRhiResources.1.m_rhiDepthCopy = none ∧
     e.destroyRhiResources.1.m_rhiDepthCube = none ∧
     e.destroyRhiResources.1.m_rhiCubeCopy = none ∧
     e.destroyRhiResources.1.m_rhiDepthStencil = none ∧
     e.destroyRhiResources.1.m_rhiRenderTargets = List.replicate 6 none ∧
     e.destroyRhiResources.1.m_rhiRenderPassDesc = none ∧
     e.destroyRhiResources.1.m_rhiBlurRenderTarget0 = none ∧
     e.destroyRhiResources.1.m_rhiBlurRenderTarget1 = none ∧
     e.destroyRhiResources.1.m_rhiBlurRenderPassDesc = none) ∧
    e.destroyRhiResources.1.m_lightIndex = e.m_lightIndex ∧
    e.destroyRhiResources.1.m_shadowMapMode = e.m_shadowMapMode ∧
    e.destroyRhiResources.2 = e.ownedResourceIds ∧
    (∀ t, e.m_rhiDepthTextureArray = some t →
      t.id ∉ e.ownedResourceIds → t.id ∉ e.destroyRhiResources.2) := by
  refine ⟨⟨rfl, rfl, rfl, rfl, rfl, rfl, rfl, rfl, rfl, rfl⟩, rfl, rfl, rfl, ?_⟩
  intro t _ hnot
  exact hnot

/-- Witness for C10 at a concrete entry: a VSM entry whose shared array (id
99) is distinct from its owned resources (ids 1–7); after
`destroyRhiResources` the deleted ids are exactly the owned ones and 99 is
not among them. -/
theorem C10_destroy_deletes_owned_only_witness :
    (let e : QSSGShadowMapEntry :=
      { QSSGShadowMapEntry.default with
          m_lightIndex := 0
          m_rhiDepthTextureArray := some ⟨99, QRhiTextureFormat.R16F, ⟨512, 512⟩, 3⟩
          m_rhiDepthCopy := some ⟨1, QRhiTextureFormat.R16F, ⟨512, 512⟩, 0⟩
          m_rhiDepthStencil := some ⟨2, ⟨512, 512⟩⟩
          m_rhiRenderTargets :=
            [some ⟨3, [(99, 0)], true⟩, none, none, none, none, none]
          m_rhiRenderPassDesc := some ⟨4⟩
          m_rhiBlurRenderTarget0 := some ⟨5, [(1, 0)], false⟩
          m_rhiBlurRenderTarget1 := some ⟨6, [(99, 0)], false⟩
          m_rhiBlurRenderPassDesc := some ⟨7⟩ }
    e.destroyRhiResources.1.m_rhiDepthTextureArray = none ∧
    e.destroyRhiResources.2 = e.ownedResourceIds ∧
    (99 : Nat) ∉ e.destroyRhiResources.2) := by
  have h := C10_destroy_deletes_owned_only
    { QSSGShadowMapEntry.default with
        m_lightIndex := 0
        m_rhiDepthTextureArray := some ⟨99, QRhiTextureFormat.R16F, ⟨512, 512⟩, 3⟩
        m_rhiDepthCopy := some ⟨1, QRhiTextureFormat.R16F, ⟨512, 512⟩, 0⟩
        m_rhiDepthStencil := some ⟨2, ⟨512, 512⟩⟩
        m_rhiRenderTargets :=
          [some ⟨3, [(99, 0)], true⟩, none, none, none, none, none]
        m_rhiRenderPassDesc := some ⟨4⟩
        m_rhiBlurRenderTarget0 := some ⟨5, [(1, 0)], false⟩
        m_rhiBlurRenderTarget1 := some ⟨6, [(99, 0)], false⟩
        m_rhiBlurRenderPassDesc := some ⟨7⟩ }
  exact ⟨h.1.1, h.2.2.2.1, h.2.2.2.2 _ rfl (by decide)⟩

/-! ## Specification-side counting functions -/

/-- The number of shadow-casting lights in a list. -/
def countShadows (lights : List QSSGShaderLight) : Nat :=
  (lights.filter (fun l => l.shadows)).length

/-- A light that takes the VSM path and casts shadows (in this code base:
shadow-casting directional lights). -/
def isVsmShadow (l : QSSGShaderLight) : Bool :=
  l.shadows && decide (shadowMapModeFor l = ShadowMapModes.VSM)

/-- The number of shadow-casting VSM lights whose resolution falls in bucket
`j`. -/
def vsmCountWithIndex (lights : List QSSGShaderLight) (j : Nat) : Nat :=
  (lights.filter
    (fun l => isVsmShadow l &&
      decide (mapSizeToIndex l.m_shadowMapRes = some j))).length

/-- The spec's layer rank (§8.2 of the spec): the 0-based rank of light `k`
among shadow-casting directional lights requesting the same resolution,
in light-list order. -/
def specLayerRank (lights : List QSSGShaderLight) (k : Nat)
    (l : QSSGShaderLight) : Nat :=
  ((lights.take k).filter
    (fun p => p.shadows &&
      decide (p.type = QSSGRenderLightType.DirectionalLight) &&
      decide (p.m_shadowMapRes = l.m_shadowMapRes))).length

/-! ## Counting-loop lemmas -/

lemma countingAux_preserves_lower (lights : List QSSGShaderLight) :
    ∀ (idx : Nat) (acc acc' : CountAcc),
      countingAux lights idx acc = some acc' →
      ∀ m < idx, acc'.lightIndexToLayerIndex[m]? =
        acc.lightIndexToLayerIndex[m]? := by
  induction lights with
  | nil =>
    intro idx acc acc' h m _
    simp only [countingAux, Option.some.injEq] at h
    rw [← h]
  | cons l rest ih =>
    intro idx acc acc' h m hm
    simp only [countingAux] at h
    by_cases hcond : l.shadows = false ∨ shadowMapModeFor l = ShadowMapModes.CUBE
    · rw [if_pos hcond] at h
      by_cases hs : l.shadows = true
      · rw [if_pos hs] at h
        exact ih (idx + 1) _ acc' h m (by omega)
      · rw [if_neg hs] at h
        exact ih (idx + 1) _ acc' h m (by omega)
    · rw [if_neg hcond] at h
      have hs : l.shadows = true := by
        rcases Bool.eq_false_or_eq_true l.shadows with hb | hb
        · exact hb
        · exact absurd (Or.inl hb) hcond
      rw [if_pos hs] at h
      dsimp only at h
      cases hmsi : mapSizeToIndex l.m_shadowMapRes with
      | none => rw [hmsi] at h; simp at h
      | some j0 =>
        rw [hmsi] at h
        dsimp only at h
        cases hget : acc.textureSizeLayerCount[j0]? with
        | none => rw [hget] at h; simp at h
        | some v =>
          rw [hget] at h
          dsimp only at h
          have := ih (idx + 1) _ acc' h m (by omega)
          rw [this]
          exact List.getElem?_set_ne (by omega)
/-- Inversion of one step of the counting loop: the head light is either
skipped (not a shadow-casting VSM light, only `numShadows` possibly bumped)
or it is assigned the current value of its resolution bucket's `quint8`
counter. -/
lemma countingAux_cons_inv (l : QSSGShaderLight) (rest : List QSSGShaderLight)
    (idx : Nat) (acc acc' : CountAcc)
    (h : countingAux (l :: rest) idx acc = some acc') :
    (isVsmShadow l = false ∧
      countingAux rest (idx + 1)
        (if l.shadows = true then { acc with numShadows := acc.numShadows + 1 }
         else acc) = some acc') ∨
    (∃ j0 v, isVsmShadow l = true ∧
      mapSizeToIndex l.m_shadowMapRes = some j0 ∧
      acc.textureSizeLayerCount[j0]? = some v ∧
      countingAux rest (idx + 1)
        { numShadows := acc.numShadows + 1
          textureSizeLayerCount :=
            acc.textureSizeLayerCount.set j0 ((v + 1) % 256)
          lightIndexToLayerIndex :=
            acc.lightIndexToLayerIndex.set idx v } = some acc') := by
  simp only [countingAux] at h
  by_cases hcond : l.shadows = false ∨ shadowMapModeFor l = ShadowMapModes.CUBE
  · rw [if_pos hcond] at h
    left
    constructor
    · rcases hcond with hb | hb
      · simp [isVsmShadow, hb]
      · simp [isVsmShadow, hb]
    · exact h
  · have hs : l.shadows = true := by
      rcases Bool.eq_false_or_eq_true l.shadows with hb | hb
      · exact hb
      · exact absurd (Or.inl hb) hcond
    have hvsm : shadowMapModeFor l = ShadowMapModes.VSM := by
      cases hmode : shadowMapModeFor l with
      | VSM => rfl
      | CUBE => exact absurd (Or.inr hmode) hcond
    rw [if_neg hcond] at h
    rw [if_pos hs] at h
    dsimp only at h
    cases hmsi : mapSizeToIndex l.m_shadowMapRes with
    | none => rw [hmsi] at h; simp at h
    | some j0 =>
      rw [hmsi] at h
      dsimp only at h
      cases hget : acc.textureSizeLayerCount[j0]? with
      | none => rw [hget] at h; simp at h
      | some v =>
        rw [hget] at h
        dsimp only at h
        right
        exact ⟨j0, v, by simp [isVsmShadow, hs, hvsm], rfl, hget, h⟩

lemma countShadows_cons (l : QSSGShaderLight) (rest : List QSSGShaderLight) :
    countShadows (l :: rest) =
      (if l.shadows = true then 1 else 0) + countShadows rest := by
  cases hs : l.shadows <;> simp [countShadows, List.filter_cons, hs] <;> omega

lemma vsmCountWithIndex_cons (l : QSSGShaderLight)
    (rest : List QSSGShaderLight) (j : Nat) :
    vsmCountWithIndex (l :: rest) j =
      (if (isVsmShadow l &&
            decide (mapSizeToIndex l.m_shadowMapRes = some j)) = true
       then 1 else 0) + vsmCountWithIndex rest j := by
  cases hb : isVsmShadow l &&
      decide (mapSizeToIndex l.m_shadowMapRes = some j) <;>
    simp [vsmCountWithIndex, List.filter_cons, hb] <;> omega

/-- Structural facts about a successful counting loop: the shadow count
formula, preserved lengths of the bucket array and the layer-index array,
and preservation of the `quint8` range invariant of the bucket counters. -/
lemma countingAux_structure (lights : List QSSGShaderLight) :
    ∀ (idx : Nat) (acc acc' : CountAcc),
      countingAux lights idx acc = some acc' →
      acc'.numShadows = acc.numShadows + countShadows lights ∧
      acc'.textureSizeLayerCount.length = acc.textureSizeLayerCount.length ∧
      acc'.lightIndexToLayerIndex.length = acc.lightIndexToLayerIndex.length ∧
      ((∀ v ∈ acc.textureSizeLayerCount, v < 256) →
        ∀ v ∈ acc'.textureSizeLayerCount, v < 256) := by
  induction lights with
  | nil =>
    intro idx acc acc' h
    simp only [countingAux, Option.some.injEq] at h
    subst h
    simp [countShadows]
  | cons l rest ih =>
    intro idx acc acc' h
    rcases countingAux_cons_inv l rest idx acc acc' h with
      ⟨hskip, hrec⟩ | ⟨j0, v, hvsm, hmsi, hget, hrec⟩
    · have hres := ih (idx + 1) _ acc' hrec
      by_cases hs : l.shadows = true
      · rw [if_pos hs] at hres
        refine ⟨?_, hres.2.1, hres.2.2.1, hres.2.2.2⟩
        rw [countShadows_cons, hres.1]
        simp [hs]
        omega
      · rw [if_neg hs] at hres
        refine ⟨?_, hres.2.1, hres.2.2.1, hres.2.2.2⟩
        rw [countShadows_cons, hres.1]
        simp [hs]
    · have hres := ih (idx + 1) _ acc' hrec
      have hs : l.shadows = true := by
        have := hvsm
        simp [isVsmShadow] at this
        exact this.1
      refine ⟨?_, ?_, ?_, ?_⟩
      · rw [countShadows_cons, hres.1]
        simp [hs]
        omega
      · rw [hres.2.1]
        exact List.length_set _ _ _
      · rw [hres.2.2.1]
        exact List.length_set _ _ _
      · intro hok
        refine hres.2.2.2 ?_
        intro w hw
        rcases List.mem_or_eq_of_mem_set hw with hmem | heq
        · exact hok w hmem
        · rw [heq]
          exact Nat.mod_lt _ (by omega)
lemma mem_of_getElem_some {α : Type} (l : List α) (n : Nat) (a : α)
    (h : l[n]? = some a) : a ∈ l := by
  obtain ⟨hlt, hget⟩ := List.getElem?_eq_some_iff.mp h
  rw [← hget]
  exact List.getElem_mem hlt

/-- The final value of each bucket counter: the running `quint8` count of
shadow-casting VSM lights in that resolution bucket. -/
lemma countingAux_tslc (lights : List QSSGShaderLight) :
    ∀ (idx : Nat) (acc acc' : CountAcc),
      countingAux lights idx acc = some acc' →
      (∀ v ∈ acc.textureSizeLayerCount, v < 256) →
      ∀ j, j < acc.textureSizeLayerCount.length →
        acc'.textureSizeLayerCount[j]? =
          some ((acc.textureSizeLayerCount.getD j 0 +
                 vsmCountWithIndex lights j) % 256) := by
  induction lights with
  | nil =>
    intro idx acc acc' h hok j hj
    simp only [countingAux, Option.some.injEq] at h
    subst h
    have hget : acc.textureSizeLayerCount[j]? =
        some (acc.textureSizeLayerCount[j]) :=
      List.getElem?_eq_getElem hj
    have hlt : acc.textureSizeLayerCount[j] < 256 :=
      hok _ (List.getElem_mem hj)
    rw [hget]
    simp [vsmCountWithIndex, List.getD_eq_getElem?_getD, hget,
      Nat.mod_eq_of_lt hlt]
  | cons l rest ih =>
    intro idx acc acc' h hok j hj
    rcases countingAux_cons_inv l rest idx acc acc' h with
      ⟨hskip, hrec⟩ | ⟨j0, v, hvsm, hmsi, hget, hrec⟩
    · have hcontrib :
          (isVsmShadow l &&
            decide (mapSizeToIndex l.m_shadowMapRes = some j)) = false := by
        rw [hskip]
        rfl
      by_cases hs : l.shadows = true
      · rw [if_pos hs] at hrec
        have := ih (idx + 1) _ acc' hrec hok j hj
        rw [this, vsmCountWithIndex_cons, hcontrib]
        simp
      · rw [if_neg hs] at hrec
        have := ih (idx + 1) _ acc' hrec hok j hj
        rw [this, vsmCountWithIndex_cons, hcontrib]
        simp
    · have hj0lt : j0 < acc.textureSizeLayerCount.length :=
        (List.getElem?_eq_some_iff.mp hget).1
      have hok2 : ∀ w ∈ acc.textureSizeLayerCount.set j0 ((v + 1) % 256),
          w < 256 := by
        intro w hw
        rcases List.mem_or_eq_of_mem_set hw with hmem | heq
        · exact hok w hmem
        · rw [heq]
          exact Nat.mod_lt _ (by omega)
      have hrecres := ih (idx + 1) _ acc' hrec hok2 j
        (by rw [List.length_set]; exact hj)
      dsimp only at hrecres
      by_cases hjj : j = j0
      · subst hjj
        have hsetget : (acc.textureSizeLayerCount.set j
            ((v + 1) % 256)).getD j 0 = (v + 1) % 256 := by
          simp [List.getD_eq_getElem?_getD, List.getElem?_set_self, hj]
        rw [hsetget] at hrecres
        rw [hrecres, vsmCountWithIndex_cons]
        have hcontrib :
            (isVsmShadow l &&
              decide (mapSizeToIndex l.m_shadowMapRes = some j)) = true := by
          rw [hvsm, hmsi]
          simp
        rw [hcontrib]
        have hgetD : acc.textureSizeLayerCount.getD j 0 = v := by
          simp [List.getD_eq_getElem?_getD, hget]
        rw [hgetD, Nat.mod_add_mod]
        have hone : (if (true : Bool) = true then (1 : Nat) else 0) = 1 := rfl
        rw [hone]
        congr 1
        omega
      · have hsetget : (acc.textureSizeLayerCount.set j0
            ((v + 1) % 256)).getD j 0 =
            acc.textureSizeLayerCount.getD j 0 := by
          simp [List.getD_eq_getElem?_getD,
            List.getElem?_set_ne (fun hc => hjj hc.symm)]
        rw [hsetget] at hrecres
        rw [hrecres, vsmCountWithIndex_cons]
        have hcontrib :
            (isVsmShadow l &&
              decide (mapSizeToIndex l.m_shadowMapRes = some j)) = false := by
          rw [hvsm, hmsi]
          simp
          intro hc
          exact absurd hc.symm hjj
        rw [hcontrib]
        simp
/-- The layer index recorded for each shadow-casting VSM light: the running
`quint8` bucket counter at the time the light is visited, i.e. the prior
count of same-bucket VSM lights (offset by the incoming counter, modulo
256). -/
lemma countingAux_layer (lights : List QSSGShaderLight) :
    ∀ (idx : Nat) (acc acc' : CountAcc),
      countingAux lights idx acc = some acc' →
      (∀ v ∈ acc.textureSizeLayerCount, v < 256) →
      idx + lights.length ≤ acc.lightIndexToLayerIndex.length →
      ∀ k l, lights[k]? = some l → isVsmShadow l = true →
        ∃ j, mapSizeToIndex l.m_shadowMapRes = some j ∧
          j < acc.textureSizeLayerCount.length ∧
          acc'.lightIndexToLayerIndex[idx + k]? =
            some ((acc.textureSizeLayerCount.getD j 0 +
                   vsmCountWithIndex (lights.take k) j) % 256) := by
  induction lights with
  | nil =>
    intro idx acc acc' h hok hlen k l hk
    simp at hk
  | cons l0 rest ih =>
    intro idx acc acc' h hok hlen k l hk hvsml
    rcases countingAux_cons_inv l0 rest idx acc acc' h with
      ⟨hskip, hrec⟩ | ⟨j0, v, hvsm, hmsi, hget, hrec⟩
    · cases k with
      | zero =>
        rw [List.getElem?_cons_zero] at hk
        have : l0 = l := Option.some.inj hk
        rw [this] at hskip
        rw [hskip] at hvsml
        exact absurd hvsml (by simp)
      | succ k =>
        rw [List.getElem?_cons_succ] at hk
        have hlen2 : idx + 1 + rest.length ≤
            (if l0.shadows = true then
              { acc with numShadows := acc.numShadows + 1 }
             else acc).lightIndexToLayerIndex.length := by
          by_cases hs : l0.shadows = true <;> simp [hs] <;>
            simp [List.length_cons] at hlen <;> omega
        have hok2 : ∀ v ∈ (if l0.shadows = true then
            { acc with numShadows := acc.numShadows + 1 }
           else acc).textureSizeLayerCount, v < 256 := by
          by_cases hs : l0.shadows = true <;> simp [hs] <;> exact hok
        obtain ⟨j, hj, hjlt, hfinal⟩ := ih (idx + 1) _ acc' hrec hok2 hlen2 k l
          hk hvsml
        have hjlt' : j < acc.textureSizeLayerCount.length := by
          by_cases hs : l0.shadows = true <;> simp [hs] at hjlt <;> exact hjlt
        refine ⟨j, hj, hjlt', ?_⟩
        have hidx : idx + (k + 1) = idx + 1 + k := by omega
        rw [hidx, hfinal]
        have htake : (l0 :: rest).take (k + 1) = l0 :: rest.take k :=
          List.take_succ_cons
        rw [htake, vsmCountWithIndex_cons]
        have hcontrib :
            (isVsmShadow l0 &&
              decide (mapSizeToIndex l0.m_shadowMapRes = some j)) = false := by
          rw [hskip]
          rfl
        rw [hcontrib]
        by_cases hs : l0.shadows = true <;> simp [hs]
    · have hj0lt : j0 < acc.textureSizeLayerCount.length :=
        (List.getElem?_eq_some_iff.mp hget).1
      have hvlt : v < 256 := hok v (mem_of_getElem_some _ _ _ hget)
      have hok2 : ∀ w ∈ acc.textureSizeLayerCount.set j0 ((v + 1) % 256),
          w < 256 := by
        intro w hw
        rcases List.mem_or_eq_of_mem_set hw with hmem | heq
        · exact hok w hmem
        · rw [heq]
          exact Nat.mod_lt _ (by omega)
      cases k with
      | zero =>
        rw [List.getElem?_cons_zero] at hk
        have hl : l0 = l := Option.some.inj hk
        refine ⟨j0, by rw [← hl]; exact hmsi, hj0lt, ?_⟩
        have hidxlt : idx < acc.lightIndexToLayerIndex.length := by
          simp [List.length_cons] at hlen
          omega
        have hwrite : (acc.lightIndexToLayerIndex.set idx v)[idx]? = some v := by
          simp [List.getElem?_set_self, hidxlt]
        have hpres := countingAux_preserves_lower rest (idx + 1) _ acc' hrec
          idx (by omega)
        dsimp only at hpres
        rw [Nat.add_zero, hpres, hwrite]
        have hgetD : acc.textureSizeLayerCount.getD j0 0 = v := by
          simp [List.getD_eq_getElem?_getD, hget]
        rw [List.take_zero]
        have hcnt : vsmCountWithIndex [] j0 = 0 := rfl
        rw [hcnt, hgetD, Nat.add_zero, Nat.mod_eq_of_lt hvlt]
      | succ k =>
        rw [List.getElem?_cons_succ] at hk
        have hlen2 : idx + 1 + rest.length ≤
            (acc.lightIndexToLayerIndex.set idx v).length := by
          rw [List.length_set]
          simp [List.length_cons] at hlen
          omega
        obtain ⟨j, hj, hjlt, hfinal⟩ := ih (idx + 1) _ acc' hrec hok2 hlen2 k l
          hk hvsml
        dsimp only at hfinal hjlt
        rw [List.length_set] at hjlt
        refine ⟨j, hj, hjlt, ?_⟩
        have hidx : idx + (k + 1) = idx + 1 + k := by omega
        rw [hidx, hfinal]
        have htake : (l0 :: rest).take (k + 1) = l0 :: rest.take k :=
          List.take_succ_cons
        rw [htake, vsmCountWithIndex_cons]
        by_cases hjj : j = j0
        · subst hjj
          have hsetget : (acc.textureSizeLayerCount.set j
              ((v + 1) % 256)).getD j 0 = (v + 1) % 256 := by
            simp [List.getD_eq_getElem?_getD, List.getElem?_set_self, hj0lt]
          rw [hsetget]
          have hcontrib :
              (isVsmShadow l0 &&
                decide (mapSizeToIndex l0.m_shadowMapRes = some j)) = true := by
            rw [hvsm, hmsi]
            simp
          rw [hcontrib]
          have hgetD : acc.textureSizeLayerCount.getD j 0 = v := by
            simp [List.getD_eq_getElem?_getD, hget]
          rw [hgetD, Nat.mod_add_mod]
          have hone : (if (true : Bool) = true then (1 : Nat) else 0) = 1 := rfl
          rw [hone]
          congr 1
          omega
        · have hsetget : (acc.textureSizeLayerCount.set j0
              ((v + 1) % 256)).getD j 0 =
              acc.textureSizeLayerCount.getD j 0 := by
            simp [List.getD_eq_getElem?_getD,
              List.getElem?_set_ne (fun hc => hjj hc.symm)]
          rw [hsetget]
          have hcontrib :
              (isVsmShadow l0 &&
                decide (mapSizeToIndex l0.m_shadowMapRes = some j)) = false := by
            rw [hvsm, hmsi]
            simp
            intro hc
            exact absurd hc.symm hjj
          rw [hcontrib]
          simp
/-- In this code base the VSM path is taken exactly by directional lights. -/
lemma shadowMapModeFor_eq_VSM_iff (l : QSSGShaderLight) :
    shadowMapModeFor l = ShadowMapModes.VSM ↔
      l.type = QSSGRenderLightType.DirectionalLight := by
  unfold shadowMapModeFor
  by_cases ht : l.type = QSSGRenderLightType.DirectionalLight
  · simp [ht]
  · simp [ht]

/-- Bucket-position rank and same-resolution rank agree: two valid
resolutions share a bucket index exactly when they are equal. -/
lemma vsmCount_eq_specLayerRank (lights : List QSSGShaderLight) (k : Nat)
    (l : QSSGShaderLight) (j : Nat)
    (hj : mapSizeToIndex l.m_shadowMapRes = some j) :
    vsmCountWithIndex (lights.take k) j = specLayerRank lights k l := by
  unfold vsmCountWithIndex specLayerRank
  congr 1
  apply List.filter_congr
  intro p _
  by_cases hs : p.shadows = true
  · by_cases ht : p.type = QSSGRenderLightType.DirectionalLight
    · have hvsmp : isVsmShadow p = true := by
        simp [isVsmShadow, hs, (shadowMapModeFor_eq_VSM_iff p).mpr ht]
      rw [hvsmp]
      simp only [hs, ht]
      by_cases hres : p.m_shadowMapRes = l.m_shadowMapRes
      · rw [hres, hj]
        simp
      · have hmsine : mapSizeToIndex p.m_shadowMapRes ≠ some j := by
          intro hc
          have hc1 := mapSizeToIndex_char _ _ hc
          have hc2 := mapSizeToIndex_char _ _ hj
          exact hres (by rw [hc1.2, hc2.2])
        simp [hmsine, hres]
    · have hvsmp : isVsmShadow p = false := by
        simp only [isVsmShadow, Bool.and_eq_false_iff]
        right
        simp [shadowMapModeFor_eq_VSM_iff, ht]
      rw [hvsmp]
      simp [ht]
  · have hvsmp : isVsmShadow p = false := by
      simp only [isVsmShadow, Bool.and_eq_false_iff]
      left
      simpa using hs
    rw [hvsmp]
    simp [hs]

/-- The concrete three-light list used by the spec's own layer-assignment
example: directional 1024, spot 1024, directional 512, all shadow-casting. -/
def c2ExampleLights : List QSSGShaderLight :=
  [sampleDirLight 1024, sampleSpotLight 1024, sampleDirLight 512]

/-- **C2 (counterexample)** — On the spec's own example list
`[D(1024), S(1024), D(512)]` the code does *not* assign the spot light a
VSM layer: the spot light takes the cube path (its entry is CUBE), and the
shared 1024×1024 array is created with a single layer, not the two layers
the claim asserts. -/
theorem C2_layer_rank_counterexample :
    (addShadowMaps (initialShadowState true 8) c2ExampleLights).map
        (fun s => (mapLookup s.m_depthTextureArrays ⟨1024, 1024⟩).map
          (fun t => t.arraySize)) = some (some 1) ∧
    (addShadowMaps (initialShadowState true 8) c2ExampleLights).map
        (fun s => (shadowMapEntry s 1).map
          (fun e => e.m_shadowMapMode)) = some (some ShadowMapModes.CUBE) ∧
    (1 : Nat) ≠ 2 ∧
    ShadowMapModes.CUBE ≠ ShadowMapModes.VSM := by
  decide

/-- **C2 (amended)** — For every light list accepted by the counting loop,
the candidate array-layer index computed for each shadow-casting
*directional* light equals its 0-based rank, in list order, among
shadow-casting directional lights requesting the same resolution — modulo
256, because the per-bucket counter is a `quint8`.  (Spot lights take the
cube path and are assigned no layer index; in the spec's example the two
directional lights get layer 0 in their respective one-layer arrays.) -/
theorem C2_layer_rank_amended (lights : List QSSGShaderLight) (acc : CountAcc)
    (k : Nat) (l : QSSGShaderLight)
    (h : countingLoop lights = some acc)
    (hk : lights[k]? = some l)
    (hshadow : l.shadows = true)
    (hdir : l.type = QSSGRenderLightType.DirectionalLight) :
    acc.lightIndexToLayerIndex[k]? =
      some (specLayerRank lights k l % 256) := by
  unfold countingLoop at h
  have hvsml : isVsmShadow l = true := by
    simp [isVsmShadow, hshadow, (shadowMapModeFor_eq_VSM_iff l).mpr hdir]
  obtain ⟨j, hj, _, hfinal⟩ := countingAux_layer lights 0 _ acc h
    (by
      intro v hv
      dsimp only at hv
      simp at hv
      omega)
    (by simp)
    k l hk hvsml
  rw [Nat.zero_add] at hfinal
  rw [hfinal]
  have hzero : ([0, 0, 0, 0] : List Nat).getD j 0 = 0 := by
    match j with
    | 0 => rfl
    | 1 => rfl
    | 2 => rfl
    | 3 => rfl
    | Nat.succ (Nat.succ (Nat.succ (Nat.succ _))) => rfl
  rw [hzero, Nat.zero_add, vsmCount_eq_specLayerRank lights k l j hj]

/-- Witness for the amended C2 at the spec's example list: the second
directional light (index 2, resolution 512) is assigned layer index 0 — its
rank among shadow-casting directional 512-lights. -/
theorem C2_layer_rank_amended_witness :
    ({ numShadows := 3, textureSizeLayerCount := [0, 1, 1, 0],
       lightIndexToLayerIndex := [0, 0, 0] } : CountAcc).lightIndexToLayerIndex[2]? =
      some (specLayerRank c2ExampleLights 2 (sampleDirLight 512) % 256) :=
  C2_layer_rank_amended c2ExampleLights
    { numShadows := 3, textureSizeLayerCount := [0, 1, 1, 0],
      lightIndexToLayerIndex := [0, 0, 0] }
    2 (sampleDirLight 512) (by decide) (by decide) (by decide) (by decide)
/-! ## Entry-construction lemmas -/

/-- Characterization of a successful `addDirectionalShadowMap`: the device is
present, no entry existed for the light, the shared array for the requested
size was found, and exactly one VSM entry was appended whose fields are wired
as the source wires them (main target into the shared array layer, blur
targets present, depth copy of the right size). -/
lemma addDirectionalShadowMap_some (st : ShadowState) (lightIdx : Nat)
    (size : QSize) (layerIndex : Nat) (nm : String) (st' : ShadowState)
    (h : addDirectionalShadowMap st lightIdx size layerIndex nm = some st') :
    st.rhiPresent = true ∧
    shadowMapEntry st lightIdx = none ∧
    ∃ t e, mapLookup st.m_depthTextureArrays size = some t ∧
      st'.m_shadowMapList = st.m_shadowMapList ++ [e] ∧
      st'.m_depthTextureArrays = st.m_depthTextureArrays ∧
      st'.rhiPresent = st.rhiPresent ∧
      st'.warnedMaxAttachments = st.warnedMaxAttachments ∧
      st'.warnCount = st.warnCount ∧
      st'.rhi.r16fSupported = st.rhi.r16fSupported ∧
      st'.rhi.maxColorAttachments = st.rhi.maxColorAttachments ∧
      st.rhi.allocations + 7 = st'.rhi.allocations ∧
      e.m_lightIndex = lightIdx ∧
      e.m_shadowMapMode = ShadowMapModes.VSM ∧
      e.m_rhiDepthTextureArray = some t ∧
      (∃ c, e.m_rhiDepthCopy = some c ∧ c.pixelSize = size) ∧
      e.m_rhiCubeCopy = none ∧
      (∃ rt, e.m_rhiRenderTargets = [some rt, none, none, none, none, none] ∧
        rt.colorAttachments = [(t.id, layerIndex)] ∧
        rt.hasDepthStencil = true) ∧
      e.m_rhiRenderPassDesc.isSome = true ∧
      e.m_rhiBlurRenderTarget0.isSome = true ∧
      e.m_rhiBlurRenderTarget1.isSome = true ∧
      e.m_depthArrayIndex = layerIndex := by
  unfold addDirectionalShadowMap at h
  by_cases hrp : st.rhiPresent = false
  · rw [if_pos hrp] at h
    simp at h
  · rw [if_neg hrp] at h
    cases hentry : shadowMapEntry st lightIdx with
    | some e0 => rw [hentry] at h; simp at h
    | none =>
      rw [hentry] at h
      dsimp only at h
      cases hlook : mapLookup st.m_depthTextureArrays size with
      | none => rw [hlook] at h; simp at h
      | some t =>
        rw [hlook] at h
        dsimp only [allocateRhiShadowTexture, allocateRhiShadowRenderBuffer,
          newTextureRenderTarget, newRenderPassDescriptor,
          QSSGShadowMapEntry.withRhiDepthMap, QSSGShadowMapEntry.default] at h
        have hst' := (Option.some.inj h).symm
        subst hst'
        exact ⟨by simpa using hrp, rfl, t, _, rfl, rfl, rfl, rfl, rfl,
          rfl, rfl, rfl, rfl, rfl, rfl, rfl, ⟨_, rfl, rfl⟩,
          rfl, ⟨_, rfl, rfl, rfl⟩, rfl, rfl, rfl, rfl⟩
/-- Characterization of a successful `addCubeShadowMap`: one CUBE entry is
appended with six per-face render targets into the depth cube map; the two
multi-attachment blur targets exist exactly when the device supports at
least 6 color attachments, and otherwise the one-shot warning flag is
raised (incrementing the warning count only on its first transition). -/
lemma addCubeShadowMap_some (st : ShadowState) (lightIdx : Nat) (size : QSize)
    (nm : String) (st' : ShadowState)
    (h : addCubeShadowMap st lightIdx size nm = some st') :
    st.rhiPresent = true ∧
    shadowMapEntry st lightIdx = none ∧
    ∃ e, st'.m_shadowMapList = st.m_shadowMapList ++ [e] ∧
      st'.m_depthTextureArrays = st.m_depthTextureArrays ∧
      st'.rhiPresent = st.rhiPresent ∧
      st'.rhi.r16fSupported = st.rhi.r16fSupported ∧
      st'.rhi.maxColorAttachments = st.rhi.maxColorAttachments ∧
      st.rhi.allocations ≤ st'.rhi.allocations ∧
      e.m_lightIndex = lightIdx ∧
      e.m_shadowMapMode = ShadowMapModes.CUBE ∧
      e.m_rhiDepthTextureArray = none ∧
      (∃ c, e.m_rhiCubeCopy = some c ∧ c.pixelSize = size) ∧
      (∃ d, e.m_rhiDepthCube = some d ∧ d.pixelSize = size ∧
        e.m_rhiRenderTargets.length = 6 ∧
        (∀ f, f < 6 → ∃ rt, e.m_rhiRenderTargets[f]? = some (some rt) ∧
          rt.colorAttachments = [(d.id, f)] ∧ rt.hasDepthStencil = true)) ∧
      (6 ≤ st.rhi.maxColorAttachments →
        e.m_rhiBlurRenderTarget0.isSome = true ∧
        e.m_rhiBlurRenderTarget1.isSome = true ∧
        st'.warnedMaxAttachments = st.warnedMaxAttachments ∧
        st'.warnCount = st.warnCount) ∧
      (st.rhi.maxColorAttachments < 6 →
        e.m_rhiBlurRenderTarget0 = none ∧
        e.m_rhiBlurRenderTarget1 = none ∧
        st'.warnedMaxAttachments = true ∧
        (st.warnedMaxAttachments = true → st'.warnCount = st.warnCount) ∧
        (st.warnedMaxAttachments = false →
          st'.warnCount = st.warnCount + 1)) := by
  unfold addCubeShadowMap at h
  by_cases hrp : st.rhiPresent = false
  · rw [if_pos hrp] at h
    simp at h
  · rw [if_neg hrp] at h
    cases hentry : shadowMapEntry st lightIdx with
    | some e0 => rw [hentry] at h; simp at h
    | none =>
      rw [hentry] at h
      dsimp only [allocateRhiShadowTexture, allocateRhiShadowRenderBuffer,
        newTextureRenderTarget, newRenderPassDescriptor,
        QSSGShadowMapEntry.withRhiDepthCubeMap, QSSGShadowMapEntry.default] at h
      by_cases hca : 6 ≤ st.rhi.maxColorAttachments
      · rw [if_pos hca] at h
        have hst' := (Option.some.inj h).symm
        subst hst'
        refine ⟨by simpa using hrp, rfl, _, rfl, rfl, rfl, rfl, rfl,
          by dsimp only; omega, rfl, rfl, rfl, ⟨_, rfl, rfl⟩,
          ⟨_, rfl, rfl, rfl, ?_⟩, fun _ => ⟨rfl, rfl, rfl, rfl⟩,
          fun hlt => absurd hca (by omega)⟩
        intro f hf
        interval_cases f <;> exact ⟨_, rfl, rfl, rfl⟩
      · rw [if_neg hca] at h
        by_cases hw : st.warnedMaxAttachments = false
        · rw [if_pos hw] at h
          have hst' := (Option.some.inj h).symm
          subst hst'
          refine ⟨by simpa using hrp, rfl, _, rfl, rfl, rfl, rfl, rfl,
            by dsimp only; omega, rfl, rfl, rfl, ⟨_, rfl, rfl⟩,
            ⟨_, rfl, rfl, rfl, ?_⟩,
            fun hge => absurd hge (by omega),
            fun _ => ⟨rfl, rfl, rfl, fun hc => absurd hc (by simp [hw]),
              fun _ => rfl⟩⟩
          intro f hf
          interval_cases f <;> exact ⟨_, rfl, rfl, rfl⟩
        · rw [if_neg hw] at h
          have hst' := (Option.some.inj h).symm
          subst hst'
          refine ⟨by simpa using hrp, rfl, _, rfl, rfl, rfl, rfl, rfl,
            by dsimp only; omega, rfl, rfl, rfl, ⟨_, rfl, rfl⟩,
            ⟨_, rfl, rfl, rfl, ?_⟩,
            fun hge => absurd hge (by omega),
            fun _ => ⟨rfl, rfl, by simpa using hw, fun _ => rfl,
              fun hc => absurd hc (by simpa using hw)⟩⟩
          intro f hf
          interval_cases f <;> exact ⟨_, rfl, rfl, rfl⟩
/-- The observable shape of the entry built for light `l` at light index `i`
during a rebuild with shared-array map `arrays`, layer assignment `layerOf`,
and device limit `maxCA`. -/
def entryShape (arrays : List (QSize × QRhiTexture)) (layerOf : List Nat)
    (maxCA : Nat) (i : Nat) (l : QSSGShaderLight)
    (e : QSSGShadowMapEntry) : Prop :=
  e.m_lightIndex = i ∧
  e.m_shadowMapMode = shadowMapModeFor l ∧
  (shadowMapModeFor l = ShadowMapModes.CUBE →
    e.m_rhiDepthTextureArray = none ∧
    (∃ c, e.m_rhiCubeCopy = some c ∧
      c.pixelSize = ⟨l.m_shadowMapRes, l.m_shadowMapRes⟩) ∧
    (∃ d, e.m_rhiDepthCube = some d ∧
      d.pixelSize = ⟨l.m_shadowMapRes, l.m_shadowMapRes⟩ ∧
      e.m_rhiRenderTargets.length = 6 ∧
      (∀ f, f < 6 → ∃ rt, e.m_rhiRenderTargets[f]? = some (some rt) ∧
        rt.colorAttachments = [(d.id, f)] ∧ rt.hasDepthStencil = true)) ∧
    (6 ≤ maxCA → e.m_rhiBlurRenderTarget0.isSome = true ∧
      e.m_rhiBlurRenderTarget1.isSome = true) ∧
    (maxCA < 6 → e.m_rhiBlurRenderTarget0 = none ∧
      e.m_rhiBlurRenderTarget1 = none)) ∧
  (shadowMapModeFor l = ShadowMapModes.VSM →
    (∃ t, e.m_rhiDepthTextureArray = some t ∧
      mapLookup arrays ⟨l.m_shadowMapRes, l.m_shadowMapRes⟩ = some t ∧
      (∃ rt, e.m_rhiRenderTargets = [some rt, none, none, none, none, none] ∧
        rt.colorAttachments = [(t.id, layerOf.getD i 0)] ∧
        rt.hasDepthStencil = true)) ∧
    (∃ c, e.m_rhiDepthCopy = some c ∧
      c.pixelSize = ⟨l.m_shadowMapRes, l.m_shadowMapRes⟩) ∧
    e.m_rhiBlurRenderTarget0.isSome = true ∧
    e.m_rhiBlurRenderTarget1.isSome = true ∧
    e.m_depthArrayIndex = layerOf.getD i 0)

lemma entry_scan_none (lst : List QSSGShadowMapEntry) (n : Nat)
    (h : ∀ x ∈ lst, x.m_lightIndex ≠ n) :
    lst.find? (fun e2 => decide (e2.m_lightIndex = n)) = none ∧
    lst.filter (fun e2 => decide (e2.m_lightIndex = n)) = [] := by
  constructor
  · rw [List.find?_eq_none]
    intro x hx
    simp
    exact h x hx
  · rw [List.filter_eq_nil_iff]
    intro x hx
    simp
    exact h x hx

/-- Characterization of a successful entry-construction loop, starting from
a state whose existing entries all have light indices below `idx`: the
shared-array map and device are untouched, exactly one entry per
shadow-casting light is appended (found by `shadowMapEntry` under its light
index), and each entry has the shape the construction functions give it. -/
lemma buildEntriesAux_char (lights : List QSSGShaderLight) :
    ∀ (st : ShadowState) (idx : Nat) (layerOf : List Nat) (st' : ShadowState),
      buildEntriesAux layerOf st lights idx = some st' →
      (∀ e ∈ st.m_shadowMapList, e.m_lightIndex < idx) →
      st'.m_depthTextureArrays = st.m_depthTextureArrays ∧
      st'.rhiPresent = st.rhiPresent ∧
      st'.rhi.maxColorAttachments = st.rhi.maxColorAttachments ∧
      st.rhi.allocations ≤ st'.rhi.allocations ∧
      (∃ tail, st'.m_shadowMapList = st.m_shadowMapList ++ tail ∧
        tail.length = countShadows lights ∧
        (∀ e ∈ tail, idx ≤ e.m_lightIndex ∧
          e.m_lightIndex < idx + lights.length)) ∧
      (∀ k l, lights[k]? = some l → l.shadows = true →
        ∃ e, shadowMapEntry st' (idx + k) = some e ∧
          entryShape st.m_depthTextureArrays layerOf
            st.rhi.maxColorAttachments (idx + k) l e ∧
          (st'.m_shadowMapList.filter
            (fun e2 => decide (e2.m_lightIndex = idx + k))).length = 1) := by
  induction lights with
  | nil =>
    intro st idx layerOf st' h hlow
    simp only [buildEntriesAux, Option.some.injEq] at h
    subst h
    refine ⟨rfl, rfl, rfl, le_refl _, ⟨[], by simp, by simp [countShadows],
      by simp⟩, ?_⟩
    intro k l hk
    simp at hk
  | cons l0 rest ih =>
    intro st idx layerOf st' h hlow
    simp only [buildEntriesAux] at h
    by_cases hs : l0.shadows = false
    · rw [if_pos hs] at h
      have hres := ih st (idx + 1) layerOf st' h
        (fun e he => Nat.lt_succ_of_lt (hlow e he))
      obtain ⟨harr, hpres, hcap, halloc, ⟨tail, htail, htlen, htbound⟩,
        hperk⟩ := hres
      refine ⟨harr, hpres, hcap, halloc,
        ⟨tail, htail, by rw [htlen, countShadows_cons]; simp [hs],
          fun e he => ⟨by have := (htbound e he).1; omega, by
            have := (htbound e he).2
            simp [List.length_cons]
            omega⟩⟩, ?_⟩
      intro k l hk hlsh
      cases k with
      | zero =>
        rw [List.getElem?_cons_zero] at hk
        have hl : l0 = l := Option.some.inj hk
        rw [hl, hlsh] at hs
        exact absurd hs (by simp)
      | succ k =>
        rw [List.getElem?_cons_succ] at hk
        obtain ⟨e, he1, he2, he3⟩ := hperk k l hk hlsh
        have hshift : idx + (k + 1) = idx + 1 + k := by omega
        rw [hshift]
        exact ⟨e, he1, he2, he3⟩
    · have hs' : l0.shadows = true := by
        rcases Bool.eq_false_or_eq_true l0.shadows with hb | hb
        · exact hb
        · exact absurd hb hs
      rw [if_neg hs] at h
      cases hmode : shadowMapModeFor l0 with
      | VSM =>
        rw [hmode] at h
        cases hadd : addDirectionalShadowMap st idx
            ⟨l0.m_shadowMapRes, l0.m_shadowMapRes⟩ (layerOf.getD idx 0)
            l0.debugObjectName with
        | none => rw [hadd] at h; simp at h
        | some st1 =>
          rw [hadd] at h
          dsimp only at h
          obtain ⟨hrp1, hent1, t, e, hlook, hlist1, harr1, hpres1, hwarn1,
            hwc1, hr16f1, hcap1, halloc1, helight, hemode, hearr, hecopy,
            hecube, hert, herpd, heb0, heb1, hedai⟩ :=
            addDirectionalShadowMap_some st idx _ _ _ st1 hadd
          have hlow1 : ∀ e2 ∈ st1.m_shadowMapList,
              e2.m_lightIndex < idx + 1 := by
            intro e2 he2
            rw [hlist1] at he2
            rcases List.mem_append.mp he2 with hmem | hmem
            · exact Nat.lt_succ_of_lt (hlow e2 hmem)
            · simp at hmem
              rw [hmem, helight]
              omega
          obtain ⟨harr, hpres, hcap, halloc, ⟨tail, htail, htlen, htbound⟩,
            hperk⟩ := ih st1 (idx + 1) layerOf st' h hlow1
          have hlist' : st'.m_shadowMapList =
              st.m_shadowMapList ++ (e :: tail) := by
            rw [htail, hlist1, List.append_assoc]
            rfl
          refine ⟨by rw [harr, harr1], by rw [hpres, hpres1],
            by rw [hcap, hcap1], by omega,
            ⟨e :: tail, hlist', ?_, ?_⟩, ?_⟩
          · rw [List.length_cons, htlen, countShadows_cons]
            simp [hs']
            omega
          · intro e2 he2
            rcases List.mem_cons.mp he2 with hmem | hmem
            · rw [hmem, helight]
              exact ⟨by omega, by simp [List.length_cons]⟩
            · have := htbound e2 hmem
              exact ⟨by omega, by simp [List.length_cons] at this ⊢; omega⟩
          · intro k l hk hlsh
            cases k with
            | zero =>
              rw [List.getElem?_cons_zero] at hk
              have hl0 : l0 = l := Option.some.inj hk
              rw [Nat.add_zero]
              have hstne : ∀ x ∈ st.m_shadowMapList, x.m_lightIndex ≠ idx :=
                fun x hx => by have := hlow x hx; omega
              have htne2 : ∀ x ∈ tail, x.m_lightIndex ≠ idx :=
                fun x hx => by have := (htbound x hx).1; omega
              refine ⟨e, ?_, ?_, ?_⟩
              · unfold shadowMapEntry
                rw [hlist', List.find?_append,
                  (entry_scan_none _ _ hstne).1]
                simp [List.find?, helight]
              · rw [← hl0]
                refine ⟨helight, by rw [hemode, hmode], ?_, ?_⟩
                · intro hc
                  rw [hmode] at hc
                  cases hc
                · intro _
                  exact ⟨⟨t, hearr, hlook, hert⟩, hecopy, heb0, heb1, hedai⟩
              · rw [hlist', List.filter_append, List.filter_cons,
                  (entry_scan_none _ _ htne2).2, (entry_scan_none _ _ hstne).2]
                simp [helight]
            | succ k =>
              rw [List.getElem?_cons_succ] at hk
              obtain ⟨e2, he1, he2, he3⟩ := hperk k l hk hlsh
              have hshift : idx + (k + 1) = idx + 1 + k := by omega
              rw [hshift]
              refine ⟨e2, he1, ?_, he3⟩
              rw [harr1] at he2
              rw [hcap1] at he2
              exact he2
      | CUBE =>
        rw [hmode] at h
        cases hadd : addCubeShadowMap st idx
            ⟨l0.m_shadowMapRes, l0.m_shadowMapRes⟩ l0.debugObjectName with
        | none => rw [hadd] at h; simp at h
        | some st1 =>
          rw [hadd] at h
          dsimp only at h
          obtain ⟨hrp1, hent1, e, hlist1, harr1, hpres1, hr16f1, hcap1,
            halloc1, helight, hemode, hearr, hecopy, hecube, hblurge,
            hblurlt⟩ := addCubeShadowMap_some st idx _ _ st1 hadd
          have hlow1 : ∀ e2 ∈ st1.m_shadowMapList,
              e2.m_lightIndex < idx + 1 := by
            intro e2 he2
            rw [hlist1] at he2
            rcases List.mem_append.mp he2 with hmem | hmem
            · exact Nat.lt_succ_of_lt (hlow e2 hmem)
            · simp at hmem
              rw [hmem, helight]
              omega
          obtain ⟨harr, hpres, hcap, halloc, ⟨tail, htail, htlen, htbound⟩,
            hperk⟩ := ih st1 (idx + 1) layerOf st' h hlow1
          have hlist' : st'.m_shadowMapList =
              st.m_shadowMapList ++ (e :: tail) := by
            rw [htail, hlist1, List.append_assoc]
            rfl
          refine ⟨by rw [harr, harr1], by rw [hpres, hpres1],
            by rw [hcap, hcap1], by omega,
            ⟨e :: tail, hlist', ?_, ?_⟩, ?_⟩
          · rw [List.length_cons, htlen, countShadows_cons]
            simp [hs']
            omega
          · intro e2 he2
            rcases List.mem_cons.mp he2 with hmem | hmem
            · rw [hmem, helight]
              exact ⟨by omega, by simp [List.length_cons]⟩
            · have := htbound e2 hmem
              exact ⟨by omega, by simp [List.length_cons] at this ⊢; omega⟩
          · intro k l hk hlsh
            cases k with
            | zero =>
              rw [List.getElem?_cons_zero] at hk
              have hl0 : l0 = l := Option.some.inj hk
              rw [Nat.add_zero]
              have hstne : ∀ x ∈ st.m_shadowMapList, x.m_lightIndex ≠ idx :=
                fun x hx => by have := hlow x hx; omega
              have htne2 : ∀ x ∈ tail, x.m_lightIndex ≠ idx :=
                fun x hx => by have := (htbound x hx).1; omega
              refine ⟨e, ?_, ?_, ?_⟩
              · unfold shadowMapEntry
                rw [hlist', List.find?_append,
                  (entry_scan_none _ _ hstne).1]
                simp [List.find?, helight]
              · rw [← hl0]
                refine ⟨helight, by rw [hemode, hmode], ?_, ?_⟩
                · intro _
                  refine ⟨hearr, hecopy, hecube, ?_, ?_⟩
                  · intro hge
                    exact ⟨(hblurge hge).1, (hblurge hge).2.1⟩
                  · intro hlt
                    exact ⟨(hblurlt hlt).1, (hblurlt hlt).2.1⟩
                · intro hc
                  rw [hmode] at hc
                  cases hc
              · rw [hlist', List.filter_append, List.filter_cons,
                  (entry_scan_none _ _ htne2).2, (entry_scan_none _ _ hstne).2]
                simp [helight]
            | succ k =>
              rw [List.getElem?_cons_succ] at hk
              obtain ⟨e2, he1, he2, he3⟩ := hperk k l hk hlsh
              have hshift : idx + (k + 1) = idx + 1 + k := by omega
              rw [hshift]
              refine ⟨e2, he1, ?_, he3⟩
              rw [harr1] at he2
              rw [hcap1] at he2
              exact he2
/-! ## Shared-array creation lemmas -/

/-- Number of entries of the shared-array map under a given size key. -/
def countKey (m : List (QSize × QRhiTexture)) (k : QSize) : Nat :=
  (m.filter (fun p => decide (p.1 = k))).length

lemma mapLookup_eq_find_map (m : List (QSize × QRhiTexture)) (k : QSize) :
    mapLookup m k = (m.find? (fun p => decide (p.1 = k))).map Prod.snd := by
  unfold mapLookup
  cases m.find? (fun p => decide (p.1 = k)) <;> rfl

lemma mapLookup_append (m1 m2 : List (QSize × QRhiTexture)) (k : QSize) :
    mapLookup (m1 ++ m2) k = (mapLookup m1 k).or (mapLookup m2 k) := by
  rw [mapLookup_eq_find_map, mapLookup_eq_find_map, mapLookup_eq_find_map,
    List.find?_append]
  cases m1.find? (fun p => decide (p.1 = k)) <;> simp

lemma mapLookup_nil (k : QSize) : mapLookup [] k = none := rfl

lemma mapLookup_singleton (k : QSize) (v : QRhiTexture) (k' : QSize) :
    mapLookup [(k, v)] k' = if k' = k then some v else none := by
  by_cases h : k' = k
  · subst h
    simp [mapLookup, List.find?]
  · rw [if_neg h]
    have hd : decide (k = k') = false := decide_eq_false (fun hc => h hc.symm)
    simp [mapLookup, List.find?, hd]

lemma countKey_append (m1 m2 : List (QSize × QRhiTexture)) (k : QSize) :
    countKey (m1 ++ m2) k = countKey m1 k + countKey m2 k := by
  unfold countKey
  rw [List.filter_append, List.length_append]

lemma countKey_singleton (k : QSize) (v : QRhiTexture) (k' : QSize) :
    countKey [(k, v)] k' = if k' = k then 1 else 0 := by
  by_cases h : k' = k
  · subst h
    simp [countKey, List.filter]
  · rw [if_neg h]
    have hd : decide (k = k') = false := decide_eq_false (fun hc => h hc.symm)
    simp [countKey, List.filter, hd]

lemma countKey_zero_no_match (m : List (QSize × QRhiTexture)) (k : QSize)
    (h : countKey m k = 0) : ∀ p ∈ m, p.1 ≠ k := by
  unfold countKey at h
  rw [List.length_eq_zero, List.filter_eq_nil_iff] at h
  intro p hp
  have := h p hp
  simpa using this

lemma mapInsert_absent (m : List (QSize × QRhiTexture)) (k : QSize)
    (v : QRhiTexture) (h : countKey m k = 0) :
    mapInsert m k v = m ++ [(k, v)] := by
  unfold mapInsert
  rw [if_neg]
  intro hany
  obtain ⟨p, hpmem, hp⟩ := List.any_eq_true.mp hany
  simp at hp
  exact countKey_zero_no_match m k h p hpmem hp

lemma mapLookup_zero_none (m : List (QSize × QRhiTexture)) (k : QSize)
    (h : countKey m k = 0) : mapLookup m k = none := by
  rw [mapLookup_eq_find_map]
  have : m.find? (fun p => decide (p.1 = k)) = none := by
    rw [List.find?_eq_none]
    intro p hp
    simp
    exact countKey_zero_no_match m k h p hp
  rw [this]
  rfl

/-- `indexToMapSize` is injective on successful results. -/
lemma indexToMapSize_inj (i j sz : Nat) (hi : indexToMapSize i = some sz)
    (hj : indexToMapSize j = some sz) : i = j := by
  unfold indexToMapSize at hi hj
  by_cases h1 : i ≤ 4
  · rw [if_pos h1] at hi
    by_cases h2 : j ≤ 4
    · rw [if_pos h2] at hj
      have e1 := Option.some.inj hi
      have e2 := Option.some.inj hj
      have : (2 : Nat) ^ (i + 8) = 2 ^ (j + 8) := by rw [e1, e2]
      have := Nat.pow_right_injective (by omega) this
      omega
    · rw [if_neg h2] at hj
      cases hj
  · rw [if_neg h1] at hi
    cases hi

/-- Characterization of the shared-array creation loop, assuming the bucket
indices in `pairs` are pairwise distinct and none of their sizes is already
present: everything but the array map and the device counters is untouched,
each non-empty bucket gets exactly one array of the right size and layer
count, keys not coming from any bucket are untouched, and at least one
allocation happens when some bucket is non-empty. -/
lemma createTextureArraysAux_char (pairs : List (Nat × Nat)) :
    ∀ (st st' : ShadowState),
      createTextureArraysAux st pairs = some st' →
      List.Pairwise (fun p q => p.1 ≠ q.1) pairs →
      (∀ q ∈ pairs, q.2 ≠ 0 → ∀ sz, indexToMapSize q.1 = some sz →
        countKey st.m_depthTextureArrays ⟨sz, sz⟩ = 0) →
      st'.m_shadowMapList = st.m_shadowMapList ∧
      st'.rhiPresent = st.rhiPresent ∧
      st'.rhi.maxColorAttachments = st.rhi.maxColorAttachments ∧
      st'.rhi.r16fSupported = st.rhi.r16fSupported ∧
      st'.warnedMaxAttachments = st.warnedMaxAttachments ∧
      st'.warnCount = st.warnCount ∧
      st.rhi.allocations ≤ st'.rhi.allocations ∧
      ((∃ q ∈ pairs, q.2 ≠ 0) →
        st.rhi.allocations < st'.rhi.allocations) ∧
      (∀ j v, (j, v) ∈ pairs → v ≠ 0 →
        ∃ sz t, indexToMapSize j = some sz ∧
          mapLookup st'.m_depthTextureArrays ⟨sz, sz⟩ = some t ∧
          t.pixelSize = ⟨sz, sz⟩ ∧ t.arraySize = v ∧
          countKey st'.m_depthTextureArrays ⟨sz, sz⟩ = 1) ∧
      (∀ key : QSize,
        (∀ q ∈ pairs, q.2 = 0 ∨ ∀ sz, indexToMapSize q.1 = some sz →
          key ≠ ⟨sz, sz⟩) →
        mapLookup st'.m_depthTextureArrays key =
          mapLookup st.m_depthTextureArrays key ∧
        countKey st'.m_depthTextureArrays key =
          countKey st.m_depthTextureArrays key) := by
  induction pairs with
  | nil =>
    intro st st' h _ _
    simp only [createTextureArraysAux, Option.some.injEq] at h
    subst h
    refine ⟨rfl, rfl, rfl, rfl, rfl, rfl, le_refl _, ?_, ?_, ?_⟩
    · intro hq
      obtain ⟨q, hq1, _⟩ := hq
      simp at hq1
    · intro j v hmem
      simp at hmem
    · intro key _
      exact ⟨rfl, rfl⟩
  | cons q0 rest ih =>
    intro st st' h hdist habsent
    obtain ⟨i, n⟩ := q0
    simp only [createTextureArraysAux] at h
    by_cases hn : n = 0
    · rw [if_pos hn] at h
      have hres := ih st st' h (List.Pairwise.of_cons hdist)
        (fun q hq => habsent q (List.mem_cons_of_mem _ hq))
      obtain ⟨c1, c2, c3, c4, c5, c6, c7, c8, c9, c10⟩ := hres
      refine ⟨c1, c2, c3, c4, c5, c6, c7, ?_, ?_, ?_⟩
      · intro hq
        obtain ⟨q, hq1, hq2⟩ := hq
        rcases List.mem_cons.mp hq1 with hh | hh
        · rw [hh] at hq2
          exact absurd hn (by simpa using hq2)
        · exact c8 ⟨q, hh, hq2⟩
      · intro j v hmem hv
        rcases List.mem_cons.mp hmem with hh | hh
        · have : v = n := (Prod.mk.injEq _ _ _ _ ▸ hh).2
          rw [this] at hv
          exact absurd hn hv
        · exact c9 j v hh hv
      · intro key hkey
        exact c10 key (fun q hq => hkey q (List.mem_cons_of_mem _ hq))
    · rw [if_neg hn] at h
      cases hidx : indexToMapSize i with
      | none => rw [hidx] at h; simp at h
      | some mapSize =>
        rw [hidx] at h
        dsimp only [allocateRhiShadowTexture] at h
        set tex : QRhiTexture :=
          { id := st.rhi.nextId
            format := getShadowMapTextureFormat st.rhi
            pixelSize := ⟨mapSize, mapSize⟩
            arraySize := if true = true then n else 0 } with htex
        have hcnt0 : countKey st.m_depthTextureArrays ⟨mapSize, mapSize⟩ = 0 :=
          habsent (i, n) (List.mem_cons_self _ _) hn mapSize hidx
        rw [mapInsert_absent _ _ _ hcnt0] at h
        have hdist' := List.Pairwise.of_cons hdist
        have hheaddist : ∀ q ∈ rest, i ≠ q.1 :=
          fun q hq => List.rel_of_pairwise_cons hdist hq
        have habsent' : ∀ q ∈ rest, q.2 ≠ 0 → ∀ sz,
            indexToMapSize q.1 = some sz →
            countKey (st.m_depthTextureArrays ++ [(⟨mapSize, mapSize⟩, tex)])
              ⟨sz, sz⟩ = 0 := by
          intro q hq hqn sz hqsz
          rw [countKey_append, countKey_singleton]
          have hne : (⟨sz, sz⟩ : QSize) ≠ ⟨mapSize, mapSize⟩ := by
            intro hc
            have : sz = mapSize := congrArg QSize.width hc
            rw [this] at hqsz
            exact hheaddist q hq (indexToMapSize_inj _ _ _ hidx hqsz)
          rw [if_neg hne, habsent q (List.mem_cons_of_mem _ hq) hqn sz hqsz]
        have hres := ih _ st' h hdist' habsent'
        obtain ⟨c1, c2, c3, c4, c5, c6, c7, c8, c9, c10⟩ := hres
        dsimp only at c1 c2 c3 c4 c5 c6 c7 c8
        refine ⟨c1, c2, c3, c4, c5, c6, by omega, ?_, ?_, ?_⟩
        · intro _
          omega
        · intro j v hmem hv
          rcases List.mem_cons.mp hmem with hh | hh
          · have hji : j = i ∧ v = n := by
              have := Prod.mk.injEq j v i n ▸ hh
              exact ⟨this.1, this.2⟩
            obtain ⟨hj, hv'⟩ := hji
            subst hj
            refine ⟨mapSize, tex, hidx, ?_, rfl, by rw [hv']; rfl, ?_⟩
            · have hkeep := c10 ⟨mapSize, mapSize⟩ ?_
              · rw [hkeep.1, mapLookup_append, mapLookup_singleton,
                  if_pos rfl, mapLookup_zero_none _ _ hcnt0]
                rfl
              · intro q hq
                by_cases hq0 : q.2 = 0
                · exact Or.inl hq0
                · right
                  intro sz hsz hkc
                  have : sz = mapSize := congrArg QSize.width hkc.symm
                  rw [this] at hsz
                  exact hheaddist q hq (indexToMapSize_inj _ _ _ hidx hsz)
            · have hkeep := c10 ⟨mapSize, mapSize⟩ ?_
              · rw [hkeep.2, countKey_append, countKey_singleton, if_pos rfl,
                  hcnt0]
              · intro q hq
                by_cases hq0 : q.2 = 0
                · exact Or.inl hq0
                · right
                  intro sz hsz hkc
                  have : sz = mapSize := congrArg QSize.width hkc.symm
                  rw [this] at hsz
                  exact hheaddist q hq (indexToMapSize_inj _ _ _ hidx hsz)
          · exact c9 j v hh hv
        · intro key hkey
          have hheadok := hkey (i, n) (List.mem_cons_self _ _)
          have hkeyne : key ≠ ⟨mapSize, mapSize⟩ := by
            rcases hheadok with hh | hh
            · exact absurd hh hn
            · exact hh mapSize hidx
          have hrest := c10 key (fun q hq => hkey q (List.mem_cons_of_mem _ hq))
          constructor
          · rw [hrest.1, mapLookup_append, mapLookup_singleton, if_neg hkeyne]
            cases mapLookup st.m_depthTextureArrays key <;> rfl
          · rw [hrest.2, countKey_append, countKey_singleton, if_neg hkeyne]
            omega
/-! ## Top-level glue lemmas -/

/-- All facts about a successful top-level counting loop. -/
lemma countingLoop_char (lights : List QSSGShaderLight) (acc : CountAcc)
    (h : countingLoop lights = some acc) :
    acc.numShadows = countShadows lights ∧
    acc.textureSizeLayerCount.length = 4 ∧
    (∀ v ∈ acc.textureSizeLayerCount, v < 256) ∧
    (∀ j, j < 4 → acc.textureSizeLayerCount[j]? =
      some (vsmCountWithIndex lights j % 256)) ∧
    (∀ k l, lights[k]? = some l → isVsmShadow l = true →
      ∃ j, mapSizeToIndex l.m_shadowMapRes = some j ∧ j < 4 ∧
        acc.lightIndexToLayerIndex[k]? =
          some (vsmCountWithIndex (lights.take k) j % 256)) := by
  unfold countingLoop at h
  have hstruct := countingAux_structure lights 0 _ acc h
  have hgetDzero : ∀ j : Nat, ([0, 0, 0, 0] : List Nat).getD j 0 = 0 := by
    intro j
    match j with
    | 0 => rfl
    | 1 => rfl
    | 2 => rfl
    | 3 => rfl
    | Nat.succ (Nat.succ (Nat.succ (Nat.succ _))) => rfl
  refine ⟨by have := hstruct.1; simpa using this,
    by have := hstruct.2.1; simpa using this, ?_, ?_, ?_⟩
  · intro v hv
    exact hstruct.2.2.2
      (by intro w hw; dsimp only at hw; simp at hw; omega) v hv
  · intro j hj
    have := countingAux_tslc lights 0 _ acc h
      (by intro w hw; dsimp only at hw; simp at hw; omega) j (by simpa using hj)
    rw [hgetDzero j, Nat.zero_add] at this
    exact this
  · intro k l hk hvsm
    obtain ⟨j, hj, hjlt, hfinal⟩ := countingAux_layer lights 0 _ acc h
      (by intro w hw; dsimp only at hw; simp at hw; omega)
      (by simp) k l hk hvsm
    rw [Nat.zero_add, hgetDzero j, Nat.zero_add] at hfinal
    exact ⟨j, hj, by simpa using hjlt, hfinal⟩

lemma list_length_four {α : Type} (l : List α) (h : l.length = 4) :
    ∃ a b c d, l = [a, b, c, d] := by
  match l, h with
  | [a, b, c, d], _ => exact ⟨a, b, c, d, rfl⟩

/-- The top-level shared-array creation over the four buckets, starting from
an empty map. -/
lemma createTextureArrays_char (st : ShadowState) (v0 v1 v2 v3 : Nat)
    (st' : ShadowState)
    (h : createTextureArrays st [v0, v1, v2, v3] = some st')
    (hempty : st.m_depthTextureArrays = []) :
    st'.m_shadowMapList = st.m_shadowMapList ∧
    st'.rhiPresent = st.rhiPresent ∧
    st'.rhi.maxColorAttachments = st.rhi.maxColorAttachments ∧
    st'.rhi.r16fSupported = st.rhi.r16fSupported ∧
    st'.warnedMaxAttachments = st.warnedMaxAttachments ∧
    st'.warnCount = st.warnCount ∧
    st.rhi.allocations ≤ st'.rhi.allocations ∧
    ((v0 ≠ 0 ∨ v1 ≠ 0 ∨ v2 ≠ 0 ∨ v3 ≠ 0) →
      st.rhi.allocations < st'.rhi.allocations) ∧
    (∀ j v, (j, v) ∈ ([(0, v0), (1, v1), (2, v2), (3, v3)] : List (Nat × Nat)) →
      v ≠ 0 →
      ∃ sz t, indexToMapSize j = some sz ∧
        mapLookup st'.m_depthTextureArrays ⟨sz, sz⟩ = some t ∧
        t.pixelSize = ⟨sz, sz⟩ ∧ t.arraySize = v ∧
        countKey st'.m_depthTextureArrays ⟨sz, sz⟩ = 1) ∧
    (∀ key : QSize,
      (∀ q ∈ ([(0, v0), (1, v1), (2, v2), (3, v3)] : List (Nat × Nat)),
        q.2 = 0 ∨ ∀ sz, indexToMapSize q.1 = some sz → key ≠ ⟨sz, sz⟩) →
      mapLookup st'.m_depthTextureArrays key = none ∧
      countKey st'.m_depthTextureArrays key = 0) := by
  have hpairs : createTextureArraysAux st [(0, v0), (1, v1), (2, v2), (3, v3)]
      = some st' := by
    have : createTextureArrays st [v0, v1, v2, v3] =
        createTextureArraysAux st [(0, v0), (1, v1), (2, v2), (3, v3)] := rfl
    rw [← this]
    exact h
  have hdist : List.Pairwise (fun p q : Nat × Nat => p.1 ≠ q.1)
      [(0, v0), (1, v1), (2, v2), (3, v3)] := by
    norm_num [List.pairwise_cons]
  have habs : ∀ q ∈ ([(0, v0), (1, v1), (2, v2), (3, v3)] : List (Nat × Nat)),
      q.2 ≠ 0 → ∀ sz, indexToMapSize q.1 = some sz →
      countKey st.m_depthTextureArrays ⟨sz, sz⟩ = 0 := by
    intro q _ _ sz _
    rw [hempty]
    rfl
  obtain ⟨c1, c2, c3, c4, c5, c6, c7, c8, c9, c10⟩ :=
    createTextureArraysAux_char _ st st' hpairs hdist habs
  refine ⟨c1, c2, c3, c4, c5, c6, c7, ?_, c9, ?_⟩
  · intro hv
    refine c8 ?_
    rcases hv with hv | hv | hv | hv
    · exact ⟨(0, v0), by simp, hv⟩
    · exact ⟨(1, v1), by simp, hv⟩
    · exact ⟨(2, v2), by simp, hv⟩
    · exact ⟨(3, v3), by simp, hv⟩
  · intro key hkey
    have := c10 key hkey
    rw [hempty] at this
    exact ⟨by rw [this.1]; rfl, by rw [this.2]; rfl⟩

lemma isCompatible_cube_true (e : QSSGShadowMapEntry) (size : QSize)
    (layer : Nat) (hmode : e.m_shadowMapMode = ShadowMapModes.CUBE)
    (c : QRhiTexture) (hc : e.m_rhiCubeCopy = some c)
    (hpix : c.pixelSize = size) :
    e.isCompatible size layer ShadowMapModes.CUBE = some true := by
  simp [QSSGShadowMapEntry.isCompatible, hmode, hc, hpix]

lemma isCompatible_vsm_true (e : QSSGShadowMapEntry) (size : QSize)
    (layer : Nat) (hmode : e.m_shadowMapMode = ShadowMapModes.VSM)
    (t : QRhiTexture) (ht : e.m_rhiDepthTextureArray = some t)
    (hpix : t.pixelSize = size) (hlb : layer < t.arraySize) :
    e.isCompatible size layer ShadowMapModes.VSM = some true := by
  simp [QSSGShadowMapEntry.isCompatible, hmode, ht, hpix]
  omega

/-- The compatibility loop returns `false` when every shadow light finds a
compatible entry. -/
lemma rebuildCheckAux_all_ok (st : ShadowState) (layerOf : List Nat) :
    ∀ (lights : List QSSGShaderLight) (idx : Nat),
      (∀ k l, lights[k]? = some l → l.shadows = true →
        ∃ e, shadowMapEntry st (idx + k) = some e ∧
          e.isCompatible ⟨l.m_shadowMapRes, l.m_shadowMapRes⟩
            (if shadowMapModeFor l = ShadowMapModes.VSM then
              layerOf.getD (idx + k) 0 else 0)
            (shadowMapModeFor l) = some true) →
      rebuildCheckAux st layerOf lights idx = some false := by
  intro lights
  induction lights with
  | nil =>
    intro idx _
    rfl
  | cons l0 rest ih =>
    intro idx hall
    simp only [rebuildCheckAux]
    by_cases hs : l0.shadows = false
    · rw [if_pos hs]
      refine ih (idx + 1) ?_
      intro k l hk hsh
      have := hall (k + 1) l (by rw [List.getElem?_cons_succ]; exact hk) hsh
      have hshift : idx + (k + 1) = idx + 1 + k := by omega
      rw [hshift] at this
      exact this
    · have hs' : l0.shadows = true := by
        rcases Bool.eq_false_or_eq_true l0.shadows with hb | hb
        · exact hb
        · exact absurd hb hs
      rw [if_neg hs]
      obtain ⟨e, hfound, hcompat⟩ := hall 0 l0 (by rw [List.getElem?_cons_zero])
        hs'
      rw [Nat.add_zero] at hfound hcompat
      rw [hfound]
      dsimp only
      rw [hcompat]
      dsimp only
      rw [if_neg (by simp)]
      refine ih (idx + 1) ?_
      intro k l hk hsh
      have := hall (k + 1) l (by rw [List.getElem?_cons_succ]; exact hk) hsh
      have hshift : idx + (k + 1) = idx + 1 + k := by omega
      rw [hshift] at this
      exact this

/-- If the rebuild decision is `false`, `addShadowMaps` returns its input
state unchanged. -/
lemma addShadowMaps_no_rebuild (st : ShadowState)
    (lights : List QSSGShaderLight) (acc : CountAcc)
    (hcount : countingLoop lights = some acc)
    (hcheck : computeNeedsRebuild st lights acc = some false) :
    addShadowMaps st lights = some st := by
  unfold addShadowMaps
  by_cases hrp : st.rhiPresent = false
  · rw [if_pos hrp]
  · rw [if_neg hrp, hcount]
    dsimp only
    rw [hcheck]
    rfl

/-- Inversion of `addShadowMaps` when the device is present. -/
lemma addShadowMaps_cases (st : ShadowState) (lights : List QSSGShaderLight)
    (st' : ShadowState) (h : addShadowMaps st lights = some st')
    (hrp : st.rhiPresent = true) :
    ∃ acc, countingLoop lights = some acc ∧
      ((computeNeedsRebuild st lights acc = some false ∧ st' = st) ∨
       (computeNeedsRebuild st lights acc = some true ∧
        ∃ st2, createTextureArrays (releaseCachedResources st)
            acc.textureSizeLayerCount = some st2 ∧
          buildEntriesAux acc.lightIndexToLayerIndex st2 lights 0 =
            some st')) := by
  unfold addShadowMaps at h
  rw [if_neg (by rw [hrp]; simp)] at h
  cases hcount : countingLoop lights with
  | none => rw [hcount] at h; simp at h
  | some acc =>
    rw [hcount] at h
    dsimp only at h
    cases hcheck : computeNeedsRebuild st lights acc with
    | none => rw [hcheck] at h; simp at h
    | some b =>
      rw [hcheck] at h
      dsimp only at h
      cases b with
      | false =>
        rw [if_pos rfl] at h
        exact ⟨acc, rfl, Or.inl ⟨hcheck, (Option.some.inj h).symm⟩⟩
      | true =>
        rw [if_neg (by simp)] at h
        cases harr : createTextureArrays (releaseCachedResources st)
            acc.textureSizeLayerCount with
        | none =>
          rw [harr] at h
          simp at h
        | some st2 =>
          rw [harr] at h
          exact ⟨acc, rfl, Or.inr ⟨hcheck, st2, harr, h⟩⟩

lemma releaseCachedResources_fields (st : ShadowState) :
    (releaseCachedResources st).m_shadowMapList = [] ∧
    (releaseCachedResources st).m_depthTextureArrays = [] ∧
    (releaseCachedResources st).rhiPresent = st.rhiPresent ∧
    (releaseCachedResources st).rhi.maxColorAttachments =
      st.rhi.maxColorAttachments ∧
    (releaseCachedResources st).rhi.r16fSupported = st.rhi.r16fSupported ∧
    (releaseCachedResources st).rhi.allocations = st.rhi.allocations ∧
    (releaseCachedResources st).warnedMaxAttachments =
      st.warnedMaxAttachments ∧
    (releaseCachedResources st).warnCount = st.warnCount :=
  ⟨rfl, rfl, rfl, rfl, rfl, rfl, rfl, rfl⟩

/-- A light found in the list strictly increases its bucket's total over the
prefix before it. -/
lemma vsmCount_take_lt (lights : List QSSGShaderLight) (k : Nat)
    (l : QSSGShaderLight) (j : Nat) (hk : lights[k]? = some l)
    (hvsm : isVsmShadow l = true)
    (hj : mapSizeToIndex l.m_shadowMapRes = some j) :
    vsmCountWithIndex (lights.take k) j < vsmCountWithIndex lights j := by
  have hklt : k < lights.length := by
    by_contra hc
    push_neg at hc
    rw [List.getElem?_eq_none hc] at hk
    cases hk
  have hsplit : lights = lights.take k ++ l :: lights.drop (k + 1) := by
    have h1 := List.take_append_drop k lights
    have h2 : lights.drop k = l :: lights.drop (k + 1) := by
      have := List.getElem?_eq_some_iff.mp hk
      obtain ⟨hlt, hget⟩ := this
      rw [List.drop_eq_getElem_cons hlt, hget]
    rw [← h2]
    exact h1.symm
  conv_rhs => rw [hsplit]
  unfold vsmCountWithIndex
  rw [List.filter_append, List.length_append, List.filter_cons]
  have hpred : (isVsmShadow l &&
      decide (mapSizeToIndex l.m_shadowMapRes = some j)) = true := by
    rw [hvsm, hj]
    simp
  rw [hpred]
  simp
/-- **Rebuild fixpoint** — after any successful reconcile, reconciling again
with the same light list is a no-op, provided no resolution bucket holds 256
or more shadow-casting directional lights (the `quint8` wrap-around case). -/
lemma rebuild_fixpoint (st : ShadowState) (lights : List QSSGShaderLight)
    (st' : ShadowState) (h : addShadowMaps st lights = some st')
    (hbuckets : ∀ j, vsmCountWithIndex lights j < 256) :
    addShadowMaps st' lights = some st' := by
  by_cases hrp : st.rhiPresent = false
  · have hnoop : addShadowMaps st lights = some st := by
      unfold addShadowMaps
      rw [if_pos hrp]
    rw [hnoop] at h
    have hst : st' = st := (Option.some.inj h).symm
    subst hst
    exact hnoop
  · have hrp' : st.rhiPresent = true := by simpa using hrp
    obtain ⟨acc, hcount, hcases⟩ := addShadowMaps_cases st lights st' h hrp'
    rcases hcases with ⟨hfalse, hst⟩ | ⟨htrue, st2, harr, hbuild⟩
    · rw [hst]
      exact addShadowMaps_no_rebuild st lights acc hcount hfalse
    · obtain ⟨hnum, htslcLen, htslcOk, htslcVal, hlayer⟩ :=
        countingLoop_char lights acc hcount
      obtain ⟨v0, v1, v2, v3, htslc4⟩ := list_length_four _ htslcLen
      have hrel := releaseCachedResources_fields st
      rw [htslc4] at harr
      obtain ⟨a1, a2, a3, a4, a5, a6, a7, a8, a9, a10⟩ :=
        createTextureArrays_char _ v0 v1 v2 v3 st2 harr hrel.2.1
      have hlow : ∀ e ∈ st2.m_shadowMapList, e.m_lightIndex < 0 := by
        rw [a1, hrel.1]
        intro e he
        simp at he
      obtain ⟨b1, b2, b3, b4, ⟨tail, btail, btlen, btbound⟩, bperk⟩ :=
        buildEntriesAux_char lights st2 0 acc.lightIndexToLayerIndex st'
          hbuild hlow
      have hcnt : shadowMapEntryCount st' = countShadows lights := by
        unfold shadowMapEntryCount
        rw [btail, a1, hrel.1]
        simp [btlen]
      refine addShadowMaps_no_rebuild st' lights acc hcount ?_
      unfold computeNeedsRebuild
      rw [if_neg (by rw [hcnt, hnum]; simp)]
      refine rebuildCheckAux_all_ok st' acc.lightIndexToLayerIndex lights 0 ?_
      intro k l hk hsh
      simp only [Nat.zero_add]
      obtain ⟨e, hfound, hshape, _⟩ := bperk k l hk hsh
      rw [Nat.zero_add] at hfound hshape
      refine ⟨e, hfound, ?_⟩
      obtain ⟨hsIdx, hsMode, hsCube, hsVsm⟩ := hshape
      cases hmode : shadowMapModeFor l with
      | CUBE =>
        rw [if_neg (by simp)]
        obtain ⟨hanone, ⟨c, hc, hcpix⟩, hd, hblur⟩ := hsCube hmode
        exact isCompatible_cube_true e _ 0 (by rw [hsMode, hmode]) c hc hcpix
      | VSM =>
        rw [if_pos rfl]
        obtain ⟨⟨t, ht, hlook, hrt⟩, hcopy, hb0, hb1, hdai⟩ := hsVsm hmode
        have hvsml : isVsmShadow l = true := by
          simp [isVsmShadow, hsh, hmode]
        obtain ⟨j, hj, hjlt4, hlval⟩ := hlayer k l hk hvsml
        obtain ⟨hj4, hres⟩ := mapSizeToIndex_char _ _ hj
        have hcntfull := hbuckets j
        have hcnttake := vsmCount_take_lt lights k l j hk hvsml hj
        have htv := htslcVal j hjlt4
        rw [htslc4] at htv
        have hvj : ([v0, v1, v2, v3] : List Nat).getD j 0 =
            vsmCountWithIndex lights j := by
          rw [List.getD_eq_getElem?_getD, htv]
          exact Option.getD_some.trans
            (Nat.mod_eq_of_lt hcntfull)
        have hvjne : ([v0, v1, v2, v3] : List Nat).getD j 0 ≠ 0 := by
          rw [hvj]
          omega
        have hmem : (j, ([v0, v1, v2, v3] : List Nat).getD j 0) ∈
            ([(0, v0), (1, v1), (2, v2), (3, v3)] : List (Nat × Nat)) := by
          interval_cases j <;> simp
        obtain ⟨sz, t2, hszeq, hlook2, hpix2, hasz2, hckey2⟩ :=
          a9 j _ hmem hvjne
        have hsz : sz = 2 ^ (j + 8) := by
          unfold indexToMapSize at hszeq
          rw [if_pos hj4] at hszeq
          exact (Option.some.inj hszeq).symm
        have hkeyeq : (⟨sz, sz⟩ : QSize) =
            ⟨l.m_shadowMapRes, l.m_shadowMapRes⟩ := by
          rw [hsz, ← hres]
        rw [hkeyeq] at hlook2
        have ht2t : t2 = t := by
          have := hlook2.symm.trans hlook
          exact Option.some.inj this
        have hlayerval : acc.lightIndexToLayerIndex.getD k 0 =
            vsmCountWithIndex (lights.take k) j := by
          rw [List.getD_eq_getElem?_getD, hlval]
          exact Option.getD_some.trans
            (Nat.mod_eq_of_lt (by omega))
        refine isCompatible_vsm_true e _ _ (by rw [hsMode, hmode]) t ht ?_ ?_
        · rw [← ht2t, hpix2, hkeyeq]
        · rw [hlayerval, ← ht2t, hasz2, hvj]
          omega
/-! ## Success (totality) lemmas, used to run the model at scale -/

lemma addDirectionalShadowMap_total (st : ShadowState) (lightIdx : Nat)
    (size : QSize) (layer : Nat) (nm : String)
    (hrp : st.rhiPresent = true)
    (hent : shadowMapEntry st lightIdx = none)
    (hlook : mapLookup st.m_depthTextureArrays size ≠ none) :
    ∃ st1, addDirectionalShadowMap st lightIdx size layer nm = some st1 := by
  unfold addDirectionalShadowMap
  rw [if_neg (by simp [hrp]), hent]
  dsimp only
  cases hl : mapLookup st.m_depthTextureArrays size with
  | none => exact absurd hl hlook
  | some t => exact ⟨_, rfl⟩

lemma addCubeShadowMap_total (st : ShadowState) (lightIdx : Nat)
    (size : QSize) (nm : String)
    (hrp : st.rhiPresent = true)
    (hent : shadowMapEntry st lightIdx = none) :
    ∃ st1, addCubeShadowMap st lightIdx size nm = some st1 := by
  unfold addCubeShadowMap
  rw [if_neg (by simp [hrp]), hent]
  dsimp only
  by_cases hca : 6 ≤ st.rhi.maxColorAttachments
  · rw [if_pos hca]
    exact ⟨_, rfl⟩
  · rw [if_neg hca]
    by_cases hw : st.warnedMaxAttachments = false
    · rw [if_pos hw]
      exact ⟨_, rfl⟩
    · rw [if_neg hw]
      exact ⟨_, rfl⟩

/-- The entry-construction loop succeeds whenever the device is present, all
existing entries sit below the scan index, and every shadow-casting
directional light's resolution has a backing shared array. -/
lemma buildEntriesAux_total (lights : List QSSGShaderLight) :
    ∀ (st : ShadowState) (idx : Nat) (layerOf : List Nat),
      st.rhiPresent = true →
      (∀ e ∈ st.m_shadowMapList, e.m_lightIndex < idx) →
      (∀ (k : Nat) (l : QSSGShaderLight), lights[k]? = some l →
        l.shadows = true →
        shadowMapModeFor l = ShadowMapModes.VSM →
        mapLookup st.m_depthTextureArrays
          ⟨l.m_shadowMapRes, l.m_shadowMapRes⟩ ≠ none) →
      ∃ st', buildEntriesAux layerOf st lights idx = some st' := by
  induction lights with
  | nil =>
    intro st idx layerOf _ _ _
    exact ⟨st, rfl⟩
  | cons l0 rest ih =>
    intro st idx layerOf hrp hlow hlook
    simp only [buildEntriesAux]
    have hent : shadowMapEntry st idx = none :=
      (entry_scan_none _ _ (fun x hx => by have := hlow x hx; omega)).1
    by_cases hs : l0.shadows = false
    · rw [if_pos hs]
      exact ih st (idx + 1) layerOf hrp
        (fun e he => Nat.lt_succ_of_lt (hlow e he))
        (fun k l hk hsh hm => hlook (k + 1) l
          (by rw [List.getElem?_cons_succ]; exact hk) hsh hm)
    · have hs' : l0.shadows = true := by
        rcases Bool.eq_false_or_eq_true l0.shadows with hb | hb
        · exact hb
        · exact absurd hb hs
      rw [if_neg hs]
      cases hmode : shadowMapModeFor l0 with
      | VSM =>
        obtain ⟨st1, hst1⟩ := addDirectionalShadowMap_total st idx
          ⟨l0.m_shadowMapRes, l0.m_shadowMapRes⟩ (layerOf.getD idx 0)
          l0.debugObjectName hrp hent
          (hlook 0 l0 (by rw [List.getElem?_cons_zero]) hs' hmode)
        rw [hst1]
        dsimp only
        obtain ⟨hrp1, hent1, t, e, hlookE, hlist1, harr1, hpres1, _, _, _, _,
          _, helight, _⟩ := addDirectionalShadowMap_some st idx _ _ _ st1 hst1
        refine ih st1 (idx + 1) layerOf (by rw [hpres1]; exact hrp) ?_ ?_
        · intro e2 he2
          rw [hlist1] at he2
          rcases List.mem_append.mp he2 with hmem | hmem
          · exact Nat.lt_succ_of_lt (hlow e2 hmem)
          · simp at hmem
            rw [hmem, helight]
            omega
        · intro k l hk hsh hm
          rw [harr1]
          exact hlook (k + 1) l (by rw [List.getElem?_cons_succ]; exact hk)
            hsh hm
      | CUBE =>
        obtain ⟨st1, hst1⟩ := addCubeShadowMap_total st idx
          ⟨l0.m_shadowMapRes, l0.m_shadowMapRes⟩ l0.debugObjectName hrp hent
        rw [hst1]
        dsimp only
        obtain ⟨hrp1, hent1, e, hlist1, harr1, hpres1, _, _, _, helight, _⟩ :=
          addCubeShadowMap_some st idx _ _ st1 hst1
        refine ih st1 (idx + 1) layerOf (by rw [hpres1]; exact hrp) ?_ ?_
        · intro e2 he2
          rw [hlist1] at he2
          rcases List.mem_append.mp he2 with hmem | hmem
          · exact Nat.lt_succ_of_lt (hlow e2 hmem)
          · simp at hmem
            rw [hmem, helight]
            omega
        · intro k l hk hsh hm
          rw [harr1]
          exact hlook (k + 1) l (by rw [List.getElem?_cons_succ]; exact hk)
            hsh hm

/-- The shared-array creation loop always succeeds on the four-bucket array
(the bucket indices 0–3 all have a valid map size). -/
lemma createTextureArrays_total4 (st : ShadowState) (v0 v1 v2 v3 : Nat) :
    ∃ st2, createTextureArrays st [v0, v1, v2, v3] = some st2 := by
  have hrfl : createTextureArrays st [v0, v1, v2, v3] =
      createTextureArraysAux st [(0, v0), (1, v1), (2, v2), (3, v3)] := rfl
  rw [hrfl]
  have hidx : ∀ i, i ≤ 4 → indexToMapSize i = some (2 ^ (i + 8)) := by
    intro i hi
    unfold indexToMapSize
    rw [if_pos hi]
  simp only [createTextureArraysAux, hidx 0 (by omega), hidx 1 (by omega),
    hidx 2 (by omega), hidx 3 (by omega)]
  by_cases h0 : v0 = 0 <;> by_cases h1 : v1 = 0 <;> by_cases h2 : v2 = 0 <;>
    by_cases h3 : v3 = 0 <;>
    simp [h0, h1, h2, h3, createTextureArraysAux]
lemma isCompatible_vsm_false_layer (e : QSSGShadowMapEntry) (size : QSize)
    (layer : Nat) (hmode : e.m_shadowMapMode = ShadowMapModes.VSM)
    (t : QRhiTexture) (ht : e.m_rhiDepthTextureArray = some t)
    (hge : t.arraySize ≤ layer) :
    e.isCompatible size layer ShadowMapModes.VSM = some false := by
  simp [QSSGShadowMapEntry.isCompatible, hmode, ht]
  intro
  omega

/-- The compatibility loop reports a needed rebuild as soon as the second
light's entry is incompatible (the first being compatible). -/
lemma rebuildCheckAux_second_bad (st : ShadowState) (layerOf : List Nat)
    (l0 l1 : QSSGShaderLight) (rest : List QSSGShaderLight)
    (h0s : l0.shadows = true) (e0 : QSSGShadowMapEntry)
    (h0f : shadowMapEntry st 0 = some e0)
    (h0c : e0.isCompatible ⟨l0.m_shadowMapRes, l0.m_shadowMapRes⟩
      (if shadowMapModeFor l0 = ShadowMapModes.VSM then layerOf.getD 0 0
       else 0) (shadowMapModeFor l0) = some true)
    (h1s : l1.shadows = true) (e1 : QSSGShadowMapEntry)
    (h1f : shadowMapEntry st 1 = some e1)
    (h1c : e1.isCompatible ⟨l1.m_shadowMapRes, l1.m_shadowMapRes⟩
      (if shadowMapModeFor l1 = ShadowMapModes.VSM then layerOf.getD 1 0
       else 0) (shadowMapModeFor l1) = some false) :
    rebuildCheckAux st layerOf (l0 :: l1 :: rest) 0 = some true := by
  simp only [rebuildCheckAux]
  rw [if_neg (by simp [h0s]), h0f]
  dsimp only
  rw [h0c]
  dsimp only
  rw [if_neg (by simp)]
  rw [if_neg (by simp [h1s]), h1f]
  dsimp only
  rw [h1c]
  dsimp only
  rw [if_pos rfl]

/-- The 257-directional-light list that overflows the 8-bit bucket counter. -/
def c4WrapLights : List QSSGShaderLight :=
  List.replicate 257 (sampleDirLight 256)

/-- Running the model on 257 equal directional shadow lights: the first
reconcile succeeds, the second reconcile rebuilds again (the 257th light was
assigned layer 0 of a 1-layer array by `quint8` wrap-around, making entry 1
incompatible with candidate layer 1), so the second call allocates. -/
lemma c4_wrap_scenario :
    ∃ s1 s2, addShadowMaps (initialShadowState true 8) c4WrapLights = some s1 ∧
      addShadowMaps s1 c4WrapLights = some s2 ∧
      s1.rhi.allocations < s2.rhi.allocations := by
  have hfacts : (countingLoop c4WrapLights).map
      (fun a => (a.numShadows, a.textureSizeLayerCount,
        a.lightIndexToLayerIndex.getD 0 0,
        a.lightIndexToLayerIndex.getD 1 0)) =
      some (257, [1, 0, 0, 0], 0, 1) := by decide
  cases hcount : countingLoop c4WrapLights with
  | none => rw [hcount] at hfacts; cases hfacts
  | some acc =>
    rw [hcount] at hfacts
    simp only [Option.map_some', Option.some.injEq, Prod.mk.injEq] at hfacts
    obtain ⟨hnum, htslc, hl0, hl1⟩ := hfacts
    have hlight : ∀ (k : Nat) (l : QSSGShaderLight),
        c4WrapLights[k]? = some l → l = sampleDirLight 256 := by
      intro k l hk
      exact List.eq_of_mem_replicate (mem_of_getElem_some _ _ _ hk)
    -- first call
    set st0 := initialShadowState true 8 with hst0
    have hrel0 : (releaseCachedResources st0).m_depthTextureArrays = [] := rfl
    obtain ⟨st2, hst2⟩ :=
      createTextureArrays_total4 (releaseCachedResources st0) 1 0 0 0
    obtain ⟨a1, a2, a3, a4, a5, a6, a7, a8, a9, a10⟩ :=
      createTextureArrays_char _ 1 0 0 0 st2 hst2 hrel0
    obtain ⟨sz0, t0, hsz0, hlook0, hpix0, hasz0, hck0⟩ :=
      a9 0 1 (by simp) (by omega)
    have hsz256 : sz0 = 256 := by
      have : indexToMapSize 0 = some 256 := rfl
      rw [this] at hsz0
      exact (Option.some.inj hsz0).symm
    subst hsz256
    have hrp2 : st2.rhiPresent = true := by rw [a2]; rfl
    have hlist2 : st2.m_shadowMapList = [] := by rw [a1]; rfl
    obtain ⟨s1, hbuild1⟩ := buildEntriesAux_total c4WrapLights st2 0
      acc.lightIndexToLayerIndex hrp2
      (by rw [hlist2]; intro e he; simp at he)
      (by
        intro k l hk hsh hm
        rw [hlight k l hk]
        simp only [sampleDirLight]
        intro hc
        rw [hlook0] at hc
        cases hc)
    have h1 : addShadowMaps st0 c4WrapLights = some s1 := by
      unfold addShadowMaps
      rw [if_neg (by rw [hst0]; simp [initialShadowState]), hcount]
      dsimp only
      have hcheck1 : computeNeedsRebuild st0 c4WrapLights acc = some true := by
        unfold computeNeedsRebuild
        rw [if_pos (by rw [hnum]; rw [hst0]; simp [shadowMapEntryCount, initialShadowState])]
      rw [hcheck1]
      dsimp only
      rw [if_neg (by simp)]
      rw [htslc]
      rw [hst2]
      exact hbuild1
    -- facts about s1
    obtain ⟨b1, b2, b3, b4, ⟨tail, btail, btlen, btbound⟩, bperk⟩ :=
      buildEntriesAux_char c4WrapLights st2 0 acc.lightIndexToLayerIndex s1
        hbuild1 (by rw [hlist2]; intro e he; simp at he)
    have hk0 : c4WrapLights[0]? = some (sampleDirLight 256) := by decide
    have hk1 : c4WrapLights[1]? = some (sampleDirLight 256) := by decide
    obtain ⟨e0, hf0, hshape0, _⟩ := bperk 0 (sampleDirLight 256) hk0 rfl
    obtain ⟨e1, hf1, hshape1, _⟩ := bperk 1 (sampleDirLight 256) hk1 rfl
    rw [Nat.zero_add] at hf0 hf1 hshape0 hshape1
    have hmodeD : shadowMapModeFor (sampleDirLight 256) =
        ShadowMapModes.VSM := rfl
    obtain ⟨hidx0, hm0, _, hv0⟩ := hshape0
    obtain ⟨⟨ta0, hta0, htl0, _⟩, _, _, _, _⟩ := hv0 hmodeD
    obtain ⟨hidx1, hm1, _, hv1⟩ := hshape1
    obtain ⟨⟨ta1, hta1, htl1, _⟩, _, _, _, _⟩ := hv1 hmodeD
    have hta0t : ta0 = t0 := by
      have := htl0.symm.trans hlook0
      exact Option.some.inj this
    have hta1t : ta1 = t0 := by
      have := htl1.symm.trans hlook0
      exact Option.some.inj this
    -- second call rebuild decision
    have hcheck2 : computeNeedsRebuild s1 c4WrapLights acc = some true := by
      unfold computeNeedsRebuild
      rw [if_neg]
      · have hrepl : c4WrapLights = sampleDirLight 256 :: sampleDirLight 256 ::
            List.replicate 255 (sampleDirLight 256) := rfl
        rw [hrepl]
        refine rebuildCheckAux_second_bad s1 acc.lightIndexToLayerIndex _ _ _
          rfl e0 hf0 ?_ rfl e1 hf1 ?_
        · rw [hmodeD, if_pos rfl, hl0]
          exact isCompatible_vsm_true e0 _ 0 (by rw [hm0, hmodeD]) ta0 hta0
            (by rw [hta0t, hpix0]; rfl) (by rw [hta0t, hasz0]; omega)
        · rw [hmodeD, if_pos rfl, hl1]
          exact isCompatible_vsm_false_layer e1 _ 1 (by rw [hm1, hmodeD]) ta1
            hta1 (by rw [hta1t, hasz0])
      · have hcnt1 : shadowMapEntryCount s1 = 257 := by
          unfold shadowMapEntryCount
          rw [btail, hlist2]
          simp [btlen]
          decide
        rw [hnum, hcnt1]
        simp
    -- second call
    have hrel1 : (releaseCachedResources s1).m_depthTextureArrays = [] := rfl
    obtain ⟨st2b, hst2b⟩ :=
      createTextureArrays_total4 (releaseCachedResources s1) 1 0 0 0
    obtain ⟨c1, c2, c3, c4, c5, c6, c7, c8, c9, c10⟩ :=
      createTextureArrays_char _ 1 0 0 0 st2b hst2b hrel1
    obtain ⟨szb, tb, hszb, hlookb, hpixb, haszb, hckb⟩ :=
      c9 0 1 (by simp) (by omega)
    have hszb256 : szb = 256 := by
      have : indexToMapSize 0 = some 256 := rfl
      rw [this] at hszb
      exact (Option.some.inj hszb).symm
    subst hszb256
    have hrp1 : s1.rhiPresent = true := by
      rw [b2]
      exact hrp2
    have hrpb : st2b.rhiPresent = true := by
      rw [c2]
      exact hrp1
    have hlistb : st2b.m_shadowMapList = [] := by rw [c1]; rfl
    obtain ⟨s2, hbuild2⟩ := buildEntriesAux_total c4WrapLights st2b 0
      acc.lightIndexToLayerIndex hrpb
      (by rw [hlistb]; intro e he; simp at he)
      (by
        intro k l hk hsh hm
        rw [hlight k l hk]
        simp only [sampleDirLight]
        intro hc
        rw [hlookb] at hc
        cases hc)
    have h2 : addShadowMaps s1 c4WrapLights = some s2 := by
      unfold addShadowMaps
      rw [if_neg (by rw [hrp1]; simp), hcount]
      dsimp only
      rw [hcheck2]
      dsimp only
      rw [if_neg (by simp)]
      rw [htslc]
      rw [hst2b]
      exact hbuild2
    -- allocation increase across the second call
    obtain ⟨d1, d2, d3, d4, ⟨tail2, _, _, _⟩, _⟩ :=
      buildEntriesAux_char c4WrapLights st2b 0 acc.lightIndexToLayerIndex s2
        hbuild2 (by rw [hlistb]; intro e he; simp at he)
    have hrelalloc : (releaseCachedResources s1).rhi.allocations =
        s1.rhi.allocations := rfl
    have hstrict : (releaseCachedResources s1).rhi.allocations <
        st2b.rhi.allocations := c8 (by omega)
    exact ⟨s1, s2, h1, h2, by omega⟩
/-- **C4 (counterexample)** — With 257 shadow-casting directional 256×256
lights, the `quint8` per-bucket counter wraps: the first reconcile succeeds
(assigning the 257th light layer 0 of a 1-layer array), but the second
reconcile with the identical list rebuilds and allocates again, so the
"zero allocations on the second call" claim fails as stated. -/
theorem C4_idempotent_counterexample :
    (addShadowMaps (initialShadowState true 8) c4WrapLights).isSome = true ∧
    ((addShadowMaps (initialShadowState true 8) c4WrapLights).bind
        (fun s1 => addShadowMaps s1 c4WrapLights)).map
      (fun s => s.rhi.allocations) ≠
    (addShadowMaps (initialShadowState true 8) c4WrapLights).map
      (fun s => s.rhi.allocations) := by
  obtain ⟨s1, s2, h1, h2, hlt⟩ := c4_wrap_scenario
  rw [h1]
  refine ⟨rfl, ?_⟩
  show (Option.bind (some s1) (fun s1 => addShadowMaps s1 c4WrapLights)).map
      (fun s => s.rhi.allocations) ≠ (some s1).map (fun s => s.rhi.allocations)
  rw [Option.some_bind, h2]
  intro hc
  simp only [Option.map_some'] at hc
  have := Option.some.inj hc
  omega
/-- **C4 (amended)** — Calling reconcile twice in a row with an unchanged
light list performs zero GPU allocations and zero releases on the second
call — indeed the second call returns the state entirely unchanged —
provided every resolution bucket holds fewer than 256 shadow-casting
directional lights (the per-bucket layer counter is a `quint8` and wraps at
256, see the counterexample). -/
theorem C4_idempotent_amended (st : ShadowState)
    (lights : List QSSGShaderLight) (st' : ShadowState)
    (h : addShadowMaps st lights = some st')
    (hbuckets : ∀ j, vsmCountWithIndex lights j < 256) :
    addShadowMaps st' lights = some st' :=
  rebuild_fixpoint st lights st' h hbuckets

/-- Witness for the amended C4: one directional 512 shadow light from the
initial state — the second reconcile returns the rebuilt state unchanged. -/
theorem C4_idempotent_amended_witness :
    ((addShadowMaps (initialShadowState true 8) [sampleDirLight 512]).bind
        (fun s1 => addShadowMaps s1 [sampleDirLight 512])) =
      addShadowMaps (initialShadowState true 8) [sampleDirLight 512] ∧
    (addShadowMaps (initialShadowState true 8) [sampleDirLight 512]).isSome =
      true := by
  refine ⟨?_, by decide⟩
  cases h1 : addShadowMaps (initialShadowState true 8) [sampleDirLight 512] with
  | none => rfl
  | some s1 =>
    rw [Option.some_bind]
    exact C4_idempotent_amended (initialShadowState true 8)
      [sampleDirLight 512] s1 h1
      (by
        intro j
        have hle : vsmCountWithIndex [sampleDirLight 512] j ≤
            [sampleDirLight 512].length :=
          List.length_filter_le _ _
        simp at hle
        omega)
/-- **C1 (counterexample)** — A shadow-casting *spot* light does not get a
VSM entry: its entry is CUBE (the code routes every non-directional light to
the cube path). -/
theorem C1_mode_routing_counterexample :
    (addShadowMaps (initialShadowState true 8) [sampleSpotLight 1024]).map
        (fun s => (shadowMapEntry s 0).map (fun e => e.m_shadowMapMode)) =
      some (some ShadowMapModes.CUBE) ∧
    ShadowMapModes.CUBE ≠ ShadowMapModes.VSM := by
  decide

/-- **C1 (amended)** — In every reconcile call that triggers a rebuild,
every shadow-casting *point or spot* light yields exactly one CUBE entry
with six per-face render targets, and every shadow-casting *directional*
light yields exactly one VSM entry with exactly one main render target
(slot 0; slots 1–5 empty) plus two blur render targets. -/
theorem C1_mode_routing_amended (st : ShadowState)
    (lights : List QSSGShaderLight) (acc : CountAcc) (st' : ShadowState)
    (hrp : st.rhiPresent = true)
    (hcount : countingLoop lights = some acc)
    (hreb : computeNeedsRebuild st lights acc = some true)
    (h : addShadowMaps st lights = some st') :
    ∀ (k : Nat) (l : QSSGShaderLight), lights[k]? = some l →
      l.shadows = true →
      ∃ e, shadowMapEntry st' k = some e ∧
        (st'.m_shadowMapList.filter
          (fun e2 => decide (e2.m_lightIndex = k))).length = 1 ∧
        ((l.type = QSSGRenderLightType.PointLight ∨
          l.type = QSSGRenderLightType.SpotLight) →
          e.m_shadowMapMode = ShadowMapModes.CUBE ∧
          e.m_rhiRenderTargets.length = 6 ∧
          (∀ f, f < 6 →
            (e.m_rhiRenderTargets.getD f none).isSome = true)) ∧
        (l.type = QSSGRenderLightType.DirectionalLight →
          e.m_shadowMapMode = ShadowMapModes.VSM ∧
          (∃ rt, e.m_rhiRenderTargets =
            [some rt, none, none, none, none, none]) ∧
          e.m_rhiBlurRenderTarget0.isSome = true ∧
          e.m_rhiBlurRenderTarget1.isSome = true) := by
  obtain ⟨acc2, hcount2, hcases⟩ := addShadowMaps_cases st lights st' h hrp
  have hacc : acc2 = acc := by
    rw [hcount] at hcount2
    exact Option.some.inj hcount2.symm
  subst hacc
  rcases hcases with ⟨hfalse, _⟩ | ⟨htrue, st2, harr, hbuild⟩
  · rw [hreb] at hfalse
    cases Option.some.inj hfalse
  · have hrel := releaseCachedResources_fields st
    obtain ⟨hnum, htslcLen, _, _, _⟩ := countingLoop_char lights acc2 hcount
    obtain ⟨v0, v1, v2, v3, htslc4⟩ := list_length_four _ htslcLen
    rw [htslc4] at harr
    obtain ⟨a1, a2, _⟩ := createTextureArrays_char _ v0 v1 v2 v3 st2 harr
      hrel.2.1
    have hlow : ∀ e ∈ st2.m_shadowMapList, e.m_lightIndex < 0 := by
      rw [a1, hrel.1]
      intro e he
      simp at he
    obtain ⟨_, _, _, _, _, bperk⟩ :=
      buildEntriesAux_char lights st2 0 acc2.lightIndexToLayerIndex st' hbuild
        hlow
    intro k l hk hsh
    obtain ⟨e, hfound, hshape, hone⟩ := bperk k l hk hsh
    rw [Nat.zero_add] at hfound hshape
    simp only [Nat.zero_add] at hone
    obtain ⟨hsIdx, hsMode, hsCube, hsVsm⟩ := hshape
    refine ⟨e, hfound, hone, ?_, ?_⟩
    · intro htype
      have hmode : shadowMapModeFor l = ShadowMapModes.CUBE := by
        unfold shadowMapModeFor
        rw [if_pos]
        rcases htype with ht | ht <;> rw [ht] <;> intro hc <;> cases hc
      obtain ⟨_, _, ⟨d, hd, hdpix, hdlen, hdf⟩, _⟩ := hsCube hmode
      refine ⟨by rw [hsMode, hmode], hdlen, ?_⟩
      intro f hf
      obtain ⟨rt, hrt, _⟩ := hdf f hf
      rw [List.getD_eq_getElem?_getD, hrt]
      rfl
    · intro htype
      have hmode : shadowMapModeFor l = ShadowMapModes.VSM := by
        unfold shadowMapModeFor
        rw [if_neg]
        intro hc
        exact hc htype
      obtain ⟨⟨t, ht, hlook, ⟨rt, hrt, _⟩⟩, _, hb0, hb1, _⟩ := hsVsm hmode
      exact ⟨by rw [hsMode, hmode], ⟨rt, hrt⟩, hb0, hb1⟩

/-- The reconciled state for a single shadow-casting point light, used to
witness the amended C1. -/
def c1WitnessState : ShadowState :=
  (addShadowMaps (initialShadowState true 8) [samplePointLight 256]).getD
    (initialShadowState true 8)

/-- Witness for the amended C1: a single shadow-casting point light yields
exactly one CUBE entry with six per-face render targets. -/
theorem C1_mode_routing_amended_witness :
    ∃ e, shadowMapEntry c1WitnessState 0 = some e ∧
      (c1WitnessState.m_shadowMapList.filter
        (fun e2 => decide (e2.m_lightIndex = 0))).length = 1 ∧
      (((samplePointLight 256).type = QSSGRenderLightType.PointLight ∨
        (samplePointLight 256).type = QSSGRenderLightType.SpotLight) →
        e.m_shadowMapMode = ShadowMapModes.CUBE ∧
        e.m_rhiRenderTargets.length = 6 ∧
        (∀ f, f < 6 →
          (e.m_rhiRenderTargets.getD f none).isSome = true)) ∧
      ((samplePointLight 256).type = QSSGRenderLightType.DirectionalLight →
        e.m_shadowMapMode = ShadowMapModes.VSM ∧
        (∃ rt, e.m_rhiRenderTargets =
          [some rt, none, none, none, none, none]) ∧
        e.m_rhiBlurRenderTarget0.isSome = true ∧
        e.m_rhiBlurRenderTarget1.isSome = true) :=
  C1_mode_routing_amended (initialShadowState true 8) [samplePointLight 256]
    { numShadows := 1, textureSizeLayerCount := [0, 0, 0, 0],
      lightIndexToLayerIndex := [0] }
    c1WitnessState rfl (by decide) (by decide) (by decide)
    0 (samplePointLight 256) (by decide) (by decide)
/-- **C6 (counterexample)** — A shadow-casting *spot* light contributes no
resolution bucket: with a single spot 512 light the rebuild allocates no
shared texture array at all (the claim, which counts spot lights as
directional/spot bucket members, demands one 512×512 array). -/
theorem C6_shared_arrays_counterexample :
    (addShadowMaps (initialShadowState true 8) [sampleSpotLight 512]).map
        (fun s => s.m_depthTextureArrays.length) = some 0 ∧
    (addShadowMaps (initialShadowState true 8) [sampleSpotLight 512]).map
        (fun s => (shadowMapEntry s 0).map (fun e => e.m_shadowMapMode)) =
      some (some ShadowMapModes.CUBE) := by
  decide

lemma pow_key_ne (i j : Nat) (hij : i ≠ j) :
    (⟨2 ^ (i + 8), 2 ^ (i + 8)⟩ : QSize) ≠ ⟨2 ^ (j + 8), 2 ^ (j + 8)⟩ := by
  intro hc
  have : (2 : Nat) ^ (i + 8) = 2 ^ (j + 8) := congrArg QSize.width hc
  have := Nat.pow_right_injective (by omega) this
  omega

/-- **C6 (amended)** — Within every reconcile call that rebuilds, each
resolution bucket containing at least one shadow-casting *directional* light
gets exactly one shared depth texture array of that resolution, with layer
count equal to the bucket's shadow-casting directional light count modulo
256 (`quint8` counter); buckets with no directional shadow caster (in
particular buckets populated only by spot lights) get no array.  All arrays
are allocated before entries are constructed, so every shadow-casting
directional light's entry references a non-null shared array that is the
map's array for its size. -/
theorem C6_shared_arrays_amended (st : ShadowState)
    (lights : List QSSGShaderLight) (acc : CountAcc) (st' : ShadowState)
    (hrp : st.rhiPresent = true)
    (hcount : countingLoop lights = some acc)
    (hreb : computeNeedsRebuild st lights acc = some true)
    (h : addShadowMaps st lights = some st') :
    (∀ j, j < 4 →
      (vsmCountWithIndex lights j = 0 →
        mapLookup st'.m_depthTextureArrays
          ⟨2 ^ (j + 8), 2 ^ (j + 8)⟩ = none ∧
        countKey st'.m_depthTextureArrays
          ⟨2 ^ (j + 8), 2 ^ (j + 8)⟩ = 0) ∧
      (vsmCountWithIndex lights j ≠ 0 →
        ∃ t, mapLookup st'.m_depthTextureArrays
            ⟨2 ^ (j + 8), 2 ^ (j + 8)⟩ = some t ∧
          t.pixelSize = ⟨2 ^ (j + 8), 2 ^ (j + 8)⟩ ∧
          t.arraySize = vsmCountWithIndex lights j % 256 ∧
          countKey st'.m_depthTextureArrays
            ⟨2 ^ (j + 8), 2 ^ (j + 8)⟩ = 1)) ∧
    (∀ (k : Nat) (l : QSSGShaderLight), lights[k]? = some l →
      l.shadows = true → l.type = QSSGRenderLightType.DirectionalLight →
      ∃ e t, shadowMapEntry st' k = some e ∧
        e.m_rhiDepthTextureArray = some t ∧
        mapLookup st'.m_depthTextureArrays
          ⟨l.m_shadowMapRes, l.m_shadowMapRes⟩ = some t) := by
  obtain ⟨acc2, hcount2, hcases⟩ := addShadowMaps_cases st lights st' h hrp
  have hacc : acc2 = acc := by
    rw [hcount] at hcount2
    exact Option.some.inj hcount2.symm
  subst hacc
  rcases hcases with ⟨hfalse, _⟩ | ⟨htrue, st2, harr, hbuild⟩
  · rw [hreb] at hfalse
    cases Option.some.inj hfalse
  · have hrel := releaseCachedResources_fields st
    obtain ⟨hnum, htslcLen, htslcOk, htslcVal, hlayer⟩ :=
      countingLoop_char lights acc2 hcount
    obtain ⟨v0, v1, v2, v3, htslc4⟩ := list_length_four _ htslcLen
    rw [htslc4] at harr
    obtain ⟨a1, a2, a3, a4, a5, a6, a7, a8, a9, a10⟩ :=
      createTextureArrays_char _ v0 v1 v2 v3 st2 harr hrel.2.1
    have hlow : ∀ e ∈ st2.m_shadowMapList, e.m_lightIndex < 0 := by
      rw [a1, hrel.1]
      intro e he
      simp at he
    obtain ⟨b1, b2, b3, b4, ⟨tail, btail, btlen, btbound⟩, bperk⟩ :=
      buildEntriesAux_char lights st2 0 acc2.lightIndexToLayerIndex st' hbuild
        hlow
    have hvj : ∀ j, j < 4 → ([v0, v1, v2, v3] : List Nat).getD j 0 =
        vsmCountWithIndex lights j % 256 := by
      intro j hj
      have htv := htslcVal j hj
      rw [htslc4] at htv
      rw [List.getD_eq_getElem?_getD, htv]
      rfl
    have hmem4 : ∀ j, j < 4 → (j, ([v0, v1, v2, v3] : List Nat).getD j 0) ∈
        ([(0, v0), (1, v1), (2, v2), (3, v3)] : List (Nat × Nat)) := by
      intro j hj
      interval_cases j <;> simp
    -- entry-level facts for directional lights
    have hperdir : ∀ (k : Nat) (l : QSSGShaderLight), lights[k]? = some l →
        l.shadows = true → l.type = QSSGRenderLightType.DirectionalLight →
        ∃ e t, shadowMapEntry st' k = some e ∧
          e.m_rhiDepthTextureArray = some t ∧
          mapLookup st2.m_depthTextureArrays
            ⟨l.m_shadowMapRes, l.m_shadowMapRes⟩ = some t := by
      intro k l hk hsh hdir
      obtain ⟨e, hfound, hshape, _⟩ := bperk k l hk hsh
      rw [Nat.zero_add] at hfound hshape
      obtain ⟨_, _, _, hsVsm⟩ := hshape
      have hmode : shadowMapModeFor l = ShadowMapModes.VSM :=
        (shadowMapModeFor_eq_VSM_iff l).mpr hdir
      obtain ⟨⟨t, ht, hlook, _⟩, _⟩ := hsVsm hmode
      exact ⟨e, t, hfound, ht, hlook⟩
    -- bucket j with a directional shadow caster cannot have v_j = 0
    have hvne : ∀ j, j < 4 → vsmCountWithIndex lights j ≠ 0 →
        ([v0, v1, v2, v3] : List Nat).getD j 0 ≠ 0 := by
      intro j hj hcnt hv0
      have hfilter : (lights.filter (fun l => isVsmShadow l &&
          decide (mapSizeToIndex l.m_shadowMapRes = some j))) ≠ [] := by
        intro hc
        unfold vsmCountWithIndex at hcnt
        rw [hc] at hcnt
        exact hcnt rfl
      obtain ⟨l, hlmem⟩ := List.exists_mem_of_ne_nil _ hfilter
      have hlprops := List.mem_filter.mp hlmem
      have hlin := hlprops.1
      have hpred := hlprops.2
      simp only [Bool.and_eq_true, decide_eq_true_eq] at hpred
      obtain ⟨hvsm, hmsi⟩ := hpred
      obtain ⟨k, hk⟩ := List.mem_iff_getElem?.mp hlin
      have hsh : l.shadows = true := by
        simp [isVsmShadow] at hvsm
        exact hvsm.1
      have hdir : l.type = QSSGRenderLightType.DirectionalLight := by
        simp [isVsmShadow] at hvsm
        exact (shadowMapModeFor_eq_VSM_iff l).mp hvsm.2
      obtain ⟨e, t, _, _, hlook⟩ := hperdir k l hk hsh hdir
      obtain ⟨_, hres⟩ := mapSizeToIndex_char _ _ hmsi
      have habsent := a10 ⟨2 ^ (j + 8), 2 ^ (j + 8)⟩ ?_
      · rw [← hres] at habsent
        rw [habsent.1] at hlook
        cases hlook
      · intro q hq
        simp at hq
        rcases hq with hq | hq | hq | hq <;> rw [hq] <;> dsimp only
        · by_cases hj0 : j = 0
          · subst hj0
            exact Or.inl (by simpa using hv0)
          · refine Or.inr ?_
            intro sz hsz hkeq
            unfold indexToMapSize at hsz
            rw [if_pos (by omega)] at hsz
            have hsz' : sz = 2 ^ (0 + 8) := (Option.some.inj hsz).symm
            rw [hsz'] at hkeq
            exact pow_key_ne j 0 hj0 hkeq
        · by_cases hj0 : j = 1
          · subst hj0
            exact Or.inl (by simpa using hv0)
          · refine Or.inr ?_
            intro sz hsz hkeq
            unfold indexToMapSize at hsz
            rw [if_pos (by omega)] at hsz
            have hsz' : sz = 2 ^ (1 + 8) := (Option.some.inj hsz).symm
            rw [hsz'] at hkeq
            exact pow_key_ne j 1 hj0 hkeq
        · by_cases hj0 : j = 2
          · subst hj0
            exact Or.inl (by simpa using hv0)
          · refine Or.inr ?_
            intro sz hsz hkeq
            unfold indexToMapSize at hsz
            rw [if_pos (by omega)] at hsz
            have hsz' : sz = 2 ^ (2 + 8) := (Option.some.inj hsz).symm
            rw [hsz'] at hkeq
            exact pow_key_ne j 2 hj0 hkeq
        · by_cases hj0 : j = 3
          · subst hj0
            exact Or.inl (by simpa using hv0)
          · refine Or.inr ?_
            intro sz hsz hkeq
            unfold indexToMapSize at hsz
            rw [if_pos (by omega)] at hsz
            have hsz' : sz = 2 ^ (3 + 8) := (Option.some.inj hsz).symm
            rw [hsz'] at hkeq
            exact pow_key_ne j 3 hj0 hkeq
    refine ⟨?_, ?_⟩
    · intro j hj
      constructor
      · intro hcnt
        have hv0 : ([v0, v1, v2, v3] : List Nat).getD j 0 = 0 := by
          rw [hvj j hj, hcnt]
        have habsent := a10 ⟨2 ^ (j + 8), 2 ^ (j + 8)⟩ ?_
        · rw [b1]
          exact habsent
        · intro q hq
          simp at hq
          rcases hq with hq | hq | hq | hq <;> rw [hq] <;> dsimp only
          · by_cases hj0 : j = 0
            · subst hj0
              exact Or.inl (by simpa using hv0)
            · refine Or.inr ?_
              intro sz hsz hkeq
              unfold indexToMapSize at hsz
              rw [if_pos (by omega)] at hsz
              have hsz' : sz = 2 ^ (0 + 8) := (Option.some.inj hsz).symm
              rw [hsz'] at hkeq
              exact pow_key_ne j 0 hj0 hkeq
          · by_cases hj0 : j = 1
            · subst hj0
              exact Or.inl (by simpa using hv0)
            · refine Or.inr ?_
              intro sz hsz hkeq
              unfold indexToMapSize at hsz
              rw [if_pos (by omega)] at hsz
              have hsz' : sz = 2 ^ (1 + 8) := (Option.some.inj hsz).symm
              rw [hsz'] at hkeq
              exact pow_key_ne j 1 hj0 hkeq
          · by_cases hj0 : j = 2
            · subst hj0
              exact Or.inl (by simpa using hv0)
            · refine Or.inr ?_
              intro sz hsz hkeq
              unfold indexToMapSize at hsz
              rw [if_pos (by omega)] at hsz
              have hsz' : sz = 2 ^ (2 + 8) := (Option.some.inj hsz).symm
              rw [hsz'] at hkeq
              exact pow_key_ne j 2 hj0 hkeq
          · by_cases hj0 : j = 3
            · subst hj0
              exact Or.inl (by simpa using hv0)
            · refine Or.inr ?_
              intro sz hsz hkeq
              unfold indexToMapSize at hsz
              rw [if_pos (by omega)] at hsz
              have hsz' : sz = 2 ^ (3 + 8) := (Option.some.inj hsz).symm
              rw [hsz'] at hkeq
              exact pow_key_ne j 3 hj0 hkeq
      · intro hcnt
        have hvne' := hvne j hj hcnt
        obtain ⟨sz, t, hsz, hlook, hpix, hasz, hck⟩ :=
          a9 j _ (hmem4 j hj) hvne'
        have hsz' : sz = 2 ^ (j + 8) := by
          unfold indexToMapSize at hsz
          rw [if_pos (by omega)] at hsz
          exact (Option.some.inj hsz).symm
        subst hsz'
        refine ⟨t, ?_, hpix, ?_, ?_⟩
        · rw [b1]
          exact hlook
        · rw [hasz, hvj j hj]
        · rw [b1]
          exact hck
    · intro k l hk hsh hdir
      obtain ⟨e, t, hfound, ht, hlook⟩ := hperdir k l hk hsh hdir
      refine ⟨e, t, hfound, ht, ?_⟩
      rw [b1]
      exact hlook

/-- The reconciled state for one directional and one spot light (both 512),
used to witness the amended C6. -/
def c6WitnessState : ShadowState :=
  (addShadowMaps (initialShadowState true 8)
    [sampleDirLight 512, sampleSpotLight 512]).getD
    (initialShadowState true 8)

/-- Witness for the amended C6 at `[D(512), S(512)]`: bucket 1 (512×512)
holds one directional shadow caster, so exactly one 512×512 array with one
layer exists, and the directional light's entry references it. -/
theorem C6_shared_arrays_amended_witness :
    ((∀ j, j < 4 →
      (vsmCountWithIndex [sampleDirLight 512, sampleSpotLight 512] j = 0 →
        mapLookup c6WitnessState.m_depthTextureArrays
          ⟨2 ^ (j + 8), 2 ^ (j + 8)⟩ = none ∧
        countKey c6WitnessState.m_depthTextureArrays
          ⟨2 ^ (j + 8), 2 ^ (j + 8)⟩ = 0) ∧
      (vsmCountWithIndex [sampleDirLight 512, sampleSpotLight 512] j ≠ 0 →
        ∃ t, mapLookup c6WitnessState.m_depthTextureArrays
            ⟨2 ^ (j + 8), 2 ^ (j + 8)⟩ = some t ∧
          t.pixelSize = ⟨2 ^ (j + 8), 2 ^ (j + 8)⟩ ∧
          t.arraySize =
            vsmCountWithIndex [sampleDirLight 512, sampleSpotLight 512] j %
              256 ∧
          countKey c6WitnessState.m_depthTextureArrays
            ⟨2 ^ (j + 8), 2 ^ (j + 8)⟩ = 1)) ∧
    (∀ (k : Nat) (l : QSSGShaderLight),
      [sampleDirLight 512, sampleSpotLight 512][k]? = some l →
      l.shadows = true → l.type = QSSGRenderLightType.DirectionalLight →
      ∃ e t, shadowMapEntry c6WitnessState k = some e ∧
        e.m_rhiDepthTextureArray = some t ∧
        mapLookup c6WitnessState.m_depthTextureArrays
          ⟨l.m_shadowMapRes, l.m_shadowMapRes⟩ = some t)) :=
  C6_shared_arrays_amended (initialShadowState true 8)
    [sampleDirLight 512, sampleSpotLight 512]
    { numShadows := 2, textureSizeLayerCount := [0, 1, 0, 0],
      lightIndexToLayerIndex := [0, 0] }
    c6WitnessState rfl (by decide) (by decide) (by decide)
/-! ## The rebuild decision (C3) -/

/-- The spec's compatibility predicate (§3 of the spec), stated in the
spec's words: the mode must match, and for CUBE the cube map's pixel size
must equal the candidate size, while for VSM the array's pixel size must
match and the candidate layer index must be within the array's layer
count. -/
def compatibleSpec (e : QSSGShadowMapEntry) (mapSize : QSize)
    (layerIndex : Nat) (mapMode : ShadowMapModes) : Prop :=
  mapMode = e.m_shadowMapMode ∧
  (mapMode = ShadowMapModes.CUBE →
    ∃ t, e.m_rhiCubeCopy = some t ∧ t.pixelSize = mapSize) ∧
  (mapMode = ShadowMapModes.VSM →
    ∃ t, e.m_rhiDepthTextureArray = some t ∧ mapSize = t.pixelSize ∧
      layerIndex < t.arraySize)

/-- The code's `isCompatible` returns `some true` exactly on the spec's
compatibility predicate. -/
lemma isCompatible_some_true_iff (e : QSSGShadowMapEntry) (size : QSize)
    (layer : Nat) (mode : ShadowMapModes) :
    e.isCompatible size layer mode = some true ↔
      compatibleSpec e size layer mode := by
  constructor
  · intro h
    unfold QSSGShadowMapEntry.isCompatible at h
    by_cases hm : mode ≠ e.m_shadowMapMode
    · rw [if_pos hm] at h
      simp at h
    · rw [if_neg hm] at h
      push_neg at hm
      refine ⟨hm, ?_, ?_⟩
      · intro hcube
        subst hcube
        dsimp only at h
        cases hc : e.m_rhiCubeCopy with
        | none => rw [hc] at h; cases h
        | some t =>
          rw [hc] at h
          dsimp only at h
          by_cases hpix : size ≠ t.pixelSize
          · rw [if_pos hpix] at h
            simp at h
          · push_neg at hpix
            exact ⟨t, rfl, hpix.symm⟩
      · intro hvsm
        subst hvsm
        dsimp only at h
        cases ht : e.m_rhiDepthTextureArray with
        | none => rw [ht] at h; cases h
        | some t =>
          rw [ht] at h
          dsimp only at h
          by_cases hcond : size ≠ t.pixelSize ∨ t.arraySize ≤ layer
          · rw [if_pos hcond] at h
            simp at h
          · push_neg at hcond
            exact ⟨t, rfl, hcond.1, by omega⟩
  · intro hspec
    obtain ⟨hm, hcube, hvsm⟩ := hspec
    unfold QSSGShadowMapEntry.isCompatible
    rw [if_neg (by simpa using hm)]
    cases mode with
    | CUBE =>
      obtain ⟨t, ht, hpix⟩ := hcube rfl
      dsimp only
      rw [ht]
      dsimp only
      have hc : ¬ (size ≠ t.pixelSize) := by rw [hpix]; simp
      rw [if_neg hc]
    | VSM =>
      obtain ⟨t, ht, hpix, hlb⟩ := hvsm rfl
      dsimp only
      rw [ht]
      dsimp only
      have hc : ¬ (size ≠ t.pixelSize ∨ t.arraySize ≤ layer) := by
        push_neg
        exact ⟨hpix, by omega⟩
      rw [if_neg hc]

lemma isCompatible_some_false_not_spec (e : QSSGShadowMapEntry) (size : QSize)
    (layer : Nat) (mode : ShadowMapModes)
    (h : e.isCompatible size layer mode = some false) :
    ¬ compatibleSpec e size layer mode := by
  intro hspec
  have := (isCompatible_some_true_iff e size layer mode).mpr hspec
  rw [this] at h
  cases Option.some.inj h

lemma exists_light_cons_iff (P : Nat → QSSGShaderLight → Prop)
    (l0 : QSSGShaderLight) (rest : List QSSGShaderLight) :
    (∃ (k : Nat) (l : QSSGShaderLight), (l0 :: rest)[k]? = some l ∧ P k l) ↔
      (P 0 l0 ∨
        ∃ (k : Nat) (l : QSSGShaderLight), rest[k]? = some l ∧ P (k + 1) l) := by
  constructor
  · rintro ⟨k, l, hk, hp⟩
    cases k with
    | zero =>
      rw [List.getElem?_cons_zero] at hk
      have hl : l0 = l := Option.some.inj hk
      rw [← hl] at hp
      exact Or.inl hp
    | succ k =>
      rw [List.getElem?_cons_succ] at hk
      exact Or.inr ⟨k, l, hk, hp⟩
  · rintro (hp | ⟨k, l, hk, hp⟩)
    · exact ⟨0, l0, by rw [List.getElem?_cons_zero], hp⟩
    · exact ⟨k + 1, l, by rw [List.getElem?_cons_succ]; exact hk, hp⟩

/-- The compatibility loop returns `true` exactly when some shadow-casting
light has no entry or an entry violating the spec's compatibility
predicate at the freshly computed candidate. -/
lemma rebuildCheckAux_iff (st : ShadowState) (layerOf : List Nat) :
    ∀ (lights : List QSSGShaderLight) (idx : Nat) (b : Bool),
      rebuildCheckAux st layerOf lights idx = some b →
      (b = true ↔
        ∃ (k : Nat) (l : QSSGShaderLight), lights[k]? = some l ∧
          (l.shadows = true ∧
            (shadowMapEntry st (idx + k) = none ∨
             ∃ e, shadowMapEntry st (idx + k) = some e ∧
               ¬ compatibleSpec e ⟨l.m_shadowMapRes, l.m_shadowMapRes⟩
                 (if shadowMapModeFor l = ShadowMapModes.VSM then
                   layerOf.getD (idx + k) 0 else 0)
                 (shadowMapModeFor l)))) := by
  intro lights
  induction lights with
  | nil =>
    intro idx b h
    have hb : b = false := (Option.some.inj h).symm
    subst hb
    simp
  | cons l0 rest ih =>
    intro idx b h
    simp only [rebuildCheckAux] at h
    rw [exists_light_cons_iff]
    by_cases hs : l0.shadows = false
    · rw [if_pos hs] at h
      have hiff := ih (idx + 1) b h
      rw [hiff]
      constructor
      · intro ⟨k, l, hk, hp⟩
        refine Or.inr ⟨k, l, hk, ?_⟩
        have hshift : idx + 1 + k = idx + (k + 1) := by omega
        rw [hshift] at hp
        exact hp
      · rintro (hp | ⟨k, l, hk, hp⟩)
        · rw [hs] at hp
          exact absurd hp.1 (by simp)
        · refine ⟨k, l, hk, ?_⟩
          have hshift : idx + (k + 1) = idx + 1 + k := by omega
          rw [hshift] at hp
          exact hp
    · have hs' : l0.shadows = true := by
        rcases Bool.eq_false_or_eq_true l0.shadows with hb | hb
        · exact hb
        · exact absurd hb hs
      rw [if_neg hs] at h
      cases hent : shadowMapEntry st idx with
      | none =>
        rw [hent] at h
        have hb : b = true := (Option.some.inj h).symm
        subst hb
        constructor
        · intro _
          refine Or.inl ⟨hs', Or.inl ?_⟩
          rw [Nat.add_zero]
          exact hent
        · intro _
          rfl
      | some e =>
        rw [hent] at h
        dsimp only at h
        cases hcomp : e.isCompatible
            ⟨l0.m_shadowMapRes, l0.m_shadowMapRes⟩
            (if shadowMapModeFor l0 = ShadowMapModes.VSM then
              layerOf.getD idx 0 else 0)
            (shadowMapModeFor l0) with
        | none => rw [hcomp] at h; cases h
        | some compat =>
          rw [hcomp] at h
          dsimp only at h
          cases compat with
          | false =>
            rw [if_pos rfl] at h
            have hb : b = true := (Option.some.inj h).symm
            subst hb
            constructor
            · intro _
              refine Or.inl ⟨hs', Or.inr ⟨e, ?_, ?_⟩⟩
              · rw [Nat.add_zero]
                exact hent
              · rw [Nat.add_zero]
                exact isCompatible_some_false_not_spec _ _ _ _ hcomp
            · intro _
              rfl
          | true =>
            rw [if_neg (by simp)] at h
            have hiff := ih (idx + 1) b h
            rw [hiff]
            constructor
            · intro ⟨k, l, hk, hp⟩
              refine Or.inr ⟨k, l, hk, ?_⟩
              have hshift : idx + 1 + k = idx + (k + 1) := by omega
              rw [hshift] at hp
              exact hp
            · rintro (hp | ⟨k, l, hk, hp⟩)
              · exfalso
                rcases hp.2 with hnone | ⟨e2, he2, hnspec⟩
                · rw [Nat.add_zero, hent] at hnone
                  cases hnone
                · rw [Nat.add_zero, hent] at he2
                  have he2e : e2 = e := Option.some.inj he2.symm
                  subst he2e
                  rw [Nat.add_zero] at hnspec
                  exact hnspec
                    ((isCompatible_some_true_iff _ _ _ _).mp hcomp)
              · refine ⟨k, l, hk, ?_⟩
                have hshift : idx + (k + 1) = idx + 1 + k := by omega
                rw [hshift] at hp
                exact hp

/-- **C3** — `needsRebuild` is `true` iff the shadow-caster count differs
from the entry count, or some shadow-casting light has no entry for its
light index, or that light's entry violates the spec's compatibility
predicate against the freshly computed (size, candidate layer index,
mode). -/
theorem C3_needs_rebuild_iff (st : ShadowState)
    (lights : List QSSGShaderLight) (acc : CountAcc) (b : Bool)
    (hcount : countingLoop lights = some acc)
    (hcheck : computeNeedsRebuild st lights acc = some b) :
    (b = true ↔
      (countShadows lights ≠ shadowMapEntryCount st ∨
       ∃ (k : Nat) (l : QSSGShaderLight), lights[k]? = some l ∧
         (l.shadows = true ∧
           (shadowMapEntry st k = none ∨
            ∃ e, shadowMapEntry st k = some e ∧
              ¬ compatibleSpec e ⟨l.m_shadowMapRes, l.m_shadowMapRes⟩
                (if shadowMapModeFor l = ShadowMapModes.VSM then
                  acc.lightIndexToLayerIndex.getD k 0 else 0)
                (shadowMapModeFor l))))) := by
  unfold computeNeedsRebuild at hcheck
  have hnum := (countingLoop_char lights acc hcount).1
  by_cases hne : acc.numShadows ≠ shadowMapEntryCount st
  · rw [if_pos hne] at hcheck
    have hb : b = true := (Option.some.inj hcheck).symm
    subst hb
    constructor
    · intro _
      exact Or.inl (by rw [← hnum]; exact hne)
    · intro _
      rfl
  · rw [if_neg hne] at hcheck
    push_neg at hne
    have hloop := rebuildCheckAux_iff st acc.lightIndexToLayerIndex lights 0 b
      hcheck
    simp only [Nat.zero_add] at hloop
    rw [hloop]
    constructor
    · intro hex
      exact Or.inr hex
    · rintro (hc | hex)
      · exact absurd (by rw [← hnum]; exact hne) hc
      · exact hex

/-- Witness for C3: one directional shadow light against the empty initial
state — the count differs (1 ≠ 0), so `needsRebuild` is true and the
right-hand side holds through its first disjunct. -/
theorem C3_needs_rebuild_iff_witness :
    (true = true ↔
      (countShadows [sampleDirLight 512] ≠
        shadowMapEntryCount (initialShadowState true 8) ∨
       ∃ (k : Nat) (l : QSSGShaderLight),
         [sampleDirLight 512][k]? = some l ∧
         (l.shadows = true ∧
           (shadowMapEntry (initialShadowState true 8) k = none ∨
            ∃ e, shadowMapEntry (initialShadowState true 8) k = some e ∧
              ¬ compatibleSpec e ⟨l.m_shadowMapRes, l.m_shadowMapRes⟩
                (if shadowMapModeFor l = ShadowMapModes.VSM then
                  ({ numShadows := 1, textureSizeLayerCount := [0, 1, 0, 0],
                     lightIndexToLayerIndex :=
                       [0] } : CountAcc).lightIndexToLayerIndex.getD k 0
                 else 0)
                (shadowMapModeFor l))))) :=
  C3_needs_rebuild_iff (initialShadowState true 8) [sampleDirLight 512]
    { numShadows := 1, textureSizeLayerCount := [0, 1, 0, 0],
      lightIndexToLayerIndex := [0] }
    true (by decide) (by decide)

/-! ## The warn-once cube blur fallback (C9) -/

/-- The invariant that powers C9 on devices with fewer than six color
attachments: the warning fires at most once, the flag records exactly
whether it has fired, every CUBE entry lacks both blur render targets, and
once a CUBE entry exists the warning has fired exactly once. -/
def warnInvariant (st : ShadowState) : Prop :=
  st.warnCount ≤ 1 ∧
  (st.warnedMaxAttachments = true ↔ 1 ≤ st.warnCount) ∧
  (∀ e ∈ st.m_shadowMapList, e.m_shadowMapMode = ShadowMapModes.CUBE →
    e.m_rhiBlurRenderTarget0 = none ∧ e.m_rhiBlurRenderTarget1 = none) ∧
  ((∃ e ∈ st.m_shadowMapList, e.m_shadowMapMode = ShadowMapModes.CUBE) →
    st.warnCount = 1)

lemma createTextureArraysAux_warn (pairs : List (Nat × Nat)) :
    ∀ st st', createTextureArraysAux st pairs = some st' →
      st'.m_shadowMapList = st.m_shadowMapList ∧
      st'.warnedMaxAttachments = st.warnedMaxAttachments ∧
      st'.warnCount = st.warnCount ∧
      st'.rhi.maxColorAttachments = st.rhi.maxColorAttachments := by
  induction pairs with
  | nil =>
    intro st st' h
    have hst := (Option.some.inj h).symm
    subst hst
    exact ⟨rfl, rfl, rfl, rfl⟩
  | cons p rest ih =>
    intro st st' h
    obtain ⟨i, n⟩ := p
    simp only [createTextureArraysAux] at h
    by_cases hn : n = 0
    · rw [if_pos hn] at h
      exact ih st st' h
    · rw [if_neg hn] at h
      cases hm : indexToMapSize i with
      | none => rw [hm] at h; cases h
      | some s =>
        rw [hm] at h
        dsimp only at h
        have hmid := ih _ st' h
        exact hmid

lemma buildEntriesAux_warnInv (layerOf : List Nat)
    (lights : List QSSGShaderLight) :
    ∀ (st : ShadowState) (idx : Nat) (st' : ShadowState),
      buildEntriesAux layerOf st lights idx = some st' →
      st.rhi.maxColorAttachments < 6 →
      warnInvariant st →
      warnInvariant st' ∧
        st'.rhi.maxColorAttachments = st.rhi.maxColorAttachments := by
  induction lights with
  | nil =>
    intro st idx st' h _ hinv
    have hst := (Option.some.inj h).symm
    subst hst
    exact ⟨hinv, rfl⟩
  | cons l rest ih =>
    intro st idx st' h hca hinv
    simp only [buildEntriesAux] at h
    by_cases hs : l.shadows = false
    · rw [if_pos hs] at h
      exact ih st (idx + 1) st' h hca hinv
    · rw [if_neg hs] at h
      cases hmode : shadowMapModeFor l with
      | VSM =>
        rw [hmode] at h
        dsimp only at h
        cases hadd : addDirectionalShadowMap st idx
            ⟨l.m_shadowMapRes, l.m_shadowMapRes⟩ (layerOf.getD idx 0)
            l.debugObjectName with
        | none => rw [hadd] at h; cases h
        | some st1 =>
          rw [hadd] at h
          dsimp only at h
          obtain ⟨hrp, hent, t, e, hlook, hlist, harr, hrp2, hwarned, hwc,
            hr16, hmax, halloc, hlidx, hemode, hrest⟩ :=
            addDirectionalShadowMap_some st idx _ _ _ st1 hadd
          have hca1 : st1.rhi.maxColorAttachments < 6 := by
            rw [hmax]; exact hca
          have hinv1 : warnInvariant st1 := by
            obtain ⟨h1, h2, h3, h4⟩ := hinv
            refine ⟨by rw [hwc]; exact h1,
              by rw [hwarned, hwc]; exact h2, ?_, ?_⟩
            · intro e2 he2 hcube
              rw [hlist] at he2
              rcases List.mem_append.mp he2 with hold | hnew
              · exact h3 e2 hold hcube
              · have he2e : e2 = e := List.mem_singleton.mp hnew
                subst he2e
                rw [hemode] at hcube
                cases hcube
            · rintro ⟨e2, he2, hcube⟩
              rw [hlist] at he2
              rcases List.mem_append.mp he2 with hold | hnew
              · rw [hwc]
                exact h4 ⟨e2, hold, hcube⟩
              · have he2e : e2 = e := List.mem_singleton.mp hnew
                subst he2e
                rw [hemode] at hcube
                cases hcube
          have hres := ih st1 (idx + 1) st' h hca1 hinv1
          exact ⟨hres.1, by rw [hres.2, hmax]⟩
      | CUBE =>
        rw [hmode] at h
        dsimp only at h
        cases hadd : addCubeShadowMap st idx
            ⟨l.m_shadowMapRes, l.m_shadowMapRes⟩ l.debugObjectName with
        | none => rw [hadd] at h; cases h
        | some st1 =>
          rw [hadd] at h
          dsimp only at h
          obtain ⟨hrp, hent, e, hlist, harr, hrp2, hr16, hmax, halloc,
            hlidx, hemode, hedta, hcc, hd, hge, hlt⟩ :=
            addCubeShadowMap_some st idx _ _ st1 hadd
          obtain ⟨hb0, hb1, hwarned1, hwcT, hwcF⟩ := hlt hca
          have hca1 : st1.rhi.maxColorAttachments < 6 := by
            rw [hmax]; exact hca
          have hwc1 : st1.warnCount = 1 := by
            obtain ⟨h1, h2, h3, h4⟩ := hinv
            rcases Bool.eq_false_or_eq_true st.warnedMaxAttachments with
              hw | hw
            · have hstep := hwcT hw
              have h1le := h2.mp hw
              omega
            · have hstep := hwcF hw
              have h0 : ¬ (1 ≤ st.warnCount) := by
                intro hle
                rw [h2.mpr hle] at hw
                cases hw
              omega
          have hinv1 : warnInvariant st1 := by
            obtain ⟨h1, h2, h3, h4⟩ := hinv
            refine ⟨by omega, by rw [hwarned1, hwc1]; simp, ?_,
              fun _ => hwc1⟩
            intro e2 he2 hcube
            rw [hlist] at he2
            rcases List.mem_append.mp he2 with hold | hnew
            · exact h3 e2 hold hcube
            · have he2e : e2 = e := List.mem_singleton.mp hnew
              subst he2e
              exact ⟨hb0, hb1⟩
          have hres := ih st1 (idx + 1) st' h hca1 hinv1
          exact ⟨hres.1, by rw [hres.2, hmax]⟩

lemma addShadowMaps_warnInv (st : ShadowState)
    (lights : List QSSGShaderLight) (st' : ShadowState)
    (h : addShadowMaps st lights = some st')
    (hca : st.rhi.maxColorAttachments < 6)
    (hinv : warnInvariant st) :
    warnInvariant st' ∧
      st'.rhi.maxColorAttachments = st.rhi.maxColorAttachments := by
  unfold addShadowMaps at h
  by_cases hrp : st.rhiPresent = false
  · rw [if_pos hrp] at h
    have hst := (Option.some.inj h).symm
    subst hst
    exact ⟨hinv, rfl⟩
  · rw [if_neg hrp] at h
    cases hcl : countingLoop lights with
    | none => rw [hcl] at h; cases h
    | some acc =>
      rw [hcl] at h
      dsimp only at h
      cases hnr : computeNeedsRebuild st lights acc with
      | none => rw [hnr] at h; cases h
      | some b =>
        rw [hnr] at h
        dsimp only at h
        by_cases hb : b = false
        · rw [if_pos hb] at h
          have hst := (Option.some.inj h).symm
          subst hst
          exact ⟨hinv, rfl⟩
        · rw [if_neg hb] at h
          cases hct : createTextureArrays (releaseCachedResources st)
              acc.textureSizeLayerCount with
          | none => rw [hct] at h; cases h
          | some st2 =>
            rw [hct] at h
            dsimp only at h
            have hct' : createTextureArraysAux (releaseCachedResources st)
                acc.textureSizeLayerCount.enum = some st2 := hct
            have harr := createTextureArraysAux_warn
              acc.textureSizeLayerCount.enum (releaseCachedResources st)
              st2 hct'
            have hinvR : warnInvariant (releaseCachedResources st) := by
              refine ⟨hinv.1, hinv.2.1, ?_, ?_⟩
              · intro e he hc
                cases he
              · rintro ⟨e, he, hc⟩
                cases he
            have hinv2 : warnInvariant st2 := by
              obtain ⟨ha1, ha2, ha3, ha4⟩ := harr
              obtain ⟨hb1, hb2, hb3, hb4⟩ := hinvR
              refine ⟨by rw [ha3]; exact hb1,
                by rw [ha2, ha3]; exact hb2, ?_, ?_⟩
              · intro e he hc
                rw [ha1] at he
                exact hb3 e he hc
              · rintro ⟨e, he, hc⟩
                rw [ha1] at he
                rw [ha3]
                exact hb4 ⟨e, he, hc⟩
            have hca2 : st2.rhi.maxColorAttachments < 6 := by
              rw [harr.2.2.2]
              exact hca
            have hres := buildEntriesAux_warnInv acc.lightIndexToLayerIndex
              lights st2 0 st' h hca2 hinv2
            exact ⟨hres.1, by rw [hres.2, harr.2.2.2]; exact rfl⟩

lemma runFrames_warnInv (frames : List (List QSSGShaderLight)) :
    ∀ (st st' : ShadowState), runFrames st frames = some st' →
      st.rhi.maxColorAttachments < 6 →
      warnInvariant st → warnInvariant st' := by
  induction frames with
  | nil =>
    intro st st' h _ hinv
    have hst := (Option.some.inj h).symm
    subst hst
    exact hinv
  | cons f rest ih =>
    intro st st' h hca hinv
    simp only [runFrames] at h
    cases hadd : addShadowMaps st f with
    | none => rw [hadd] at h; cases h
    | some st1 =>
      rw [hadd] at h
      dsimp only at h
      have hs := addShadowMaps_warnInv st f st1 hadd hca hinv
      exact ih st1 st' h (by rw [hs.2]; exact hca) hs.1

/-- **C9** — On a device with fewer than six color attachments, across any
sequence of reconcile calls from a fresh registry: every CUBE entry has
both blur render targets null, the warning counter never exceeds one, and
as soon as any CUBE entry exists the warning has been issued exactly
once. -/
theorem C9_warn_once (r16f : Bool) (maxCA : Nat)
    (frames : List (List QSSGShaderLight)) (st' : ShadowState)
    (hca : maxCA < 6)
    (h : runFrames (initialShadowState r16f maxCA) frames = some st') :
    st'.warnCount ≤ 1 ∧
    (∀ e ∈ st'.m_shadowMapList, e.m_shadowMapMode = ShadowMapModes.CUBE →
      e.m_rhiBlurRenderTarget0 = none ∧
      e.m_rhiBlurRenderTarget1 = none) ∧
    ((∃ e ∈ st'.m_shadowMapList, e.m_shadowMapMode = ShadowMapModes.CUBE) →
      st'.warnCount = 1) := by
  have hinv0 : warnInvariant (initialShadowState r16f maxCA) := by
    refine ⟨by simp [initialShadowState], by simp [initialShadowState],
      ?_, ?_⟩
    · intro e he hc
      simp [initialShadowState] at he
    · rintro ⟨e, he, hc⟩
      simp [initialShadowState] at he
  have hfinal := runFrames_warnInv frames (initialShadowState r16f maxCA)
    st' h hca hinv0
  exact ⟨hfinal.1, hfinal.2.2.1, hfinal.2.2.2⟩

/-- The state after reconciling one shadow-casting point light on a device
with only four color attachments, used to witness C9. -/
def c9WitnessState : ShadowState :=
  (runFrames (initialShadowState true 4) [[samplePointLight 256]]).getD
    (initialShadowState true 4)

/-- Witness for C9: one cube shadow map on a 4-attachment device — no blur
targets and the warning fired exactly once. -/
theorem C9_warn_once_witness :
    c9WitnessState.warnCount ≤ 1 ∧
    (∀ e ∈ c9WitnessState.m_shadowMapList,
      e.m_shadowMapMode = ShadowMapModes.CUBE →
      e.m_rhiBlurRenderTarget0 = none ∧
      e.m_rhiBlurRenderTarget1 = none) ∧
    ((∃ e ∈ c9WitnessState.m_shadowMapList,
      e.m_shadowMapMode = ShadowMapModes.CUBE) →
      c9WitnessState.warnCount = 1) :=
  C9_warn_once true 4 [[samplePointLight 256]] c9WitnessState
    (by decide) (by decide)

end QSSG
